import Mathlib

/-!
# Whitted-style sphere ray tracer (`src/main.cpp`): embedding and verified properties

The C++ program computes with single-precision floats.  The embedding idealises
`float` as an arbitrary linear ordered field `K` (the reals in the concrete
evaluations), so rounding, overflow and underflow are not modelled.  The
library square root `glm::sqrt` is a parameter `sqrt : K → K` of every function
that (transitively) calls it; theorems that need it assume it is a genuine
square root on the non-negative numbers.

Two IEEE behaviours that decide control flow are kept:

* the running best distance of `closestIntersection` starts at the largest
  finite float `numeric_limits<float>::max()` (`FLT_MAX`), not at `+∞`;
* a division by zero in `solveQuadratic` yields `±∞` or `NaN`; such a value is
  represented by `none`, and it fails the test
  `hitTime > minHit && hitTime < intersection.distance` exactly as in C++.

Three places where the single-precision program departs from the idealisation
by more than rounding are described at the definitions `vec3.normalize`,
`vec3.clamp` and `quadC`.
-/

namespace Raytracer

/-! ## Vector / matrix algebra (the part of GLM the program uses) -/

/-- Three-component vector (`glm::vec3`). -/
structure vec3 (K : Type) where
  x : K
  y : K
  z : K
deriving DecidableEq

/-- Four-component vector (`glm::vec4`). -/
structure vec4 (K : Type) where
  x : K
  y : K
  z : K
  w : K
deriving DecidableEq

/-- Column-major 4×4 matrix (`glm::mat4`): `c0 … c3` are its columns. -/
structure mat4 (K : Type) where
  c0 : vec4 K
  c1 : vec4 K
  c2 : vec4 K
  c3 : vec4 K
deriving DecidableEq

/-- Pair of integers (`glm::ivec2`). -/
structure ivec2 where
  x : Int
  y : Int
deriving DecidableEq

section Algebra

variable {K : Type} [LinearOrderedField K]

namespace vec3

/-- Zero vector, the value of `vec3{}` and of `vec3(0, 0, 0)`. -/
def zero : vec3 K := ⟨0, 0, 0⟩

/-- Component-wise sum. -/
def add (u v : vec3 K) : vec3 K := ⟨u.x + v.x, u.y + v.y, u.z + v.z⟩

/-- Component-wise difference. -/
def sub (u v : vec3 K) : vec3 K := ⟨u.x - v.x, u.y - v.y, u.z - v.z⟩

/-- Component-wise negation. -/
def neg (u : vec3 K) : vec3 K := ⟨-u.x, -u.y, -u.z⟩

/-- Scalar times vector (`float * vec3`). -/
def smul (k : K) (u : vec3 K) : vec3 K := ⟨k * u.x, k * u.y, k * u.z⟩

/-- Component-wise product (`vec3 * vec3`). -/
def mul (u v : vec3 K) : vec3 K := ⟨u.x * v.x, u.y * v.y, u.z * v.z⟩

/-- Dot product (`glm::dot`). -/
def dot (u v : vec3 K) : K := u.x * v.x + u.y * v.y + u.z * v.z

/-- Euclidean length `glm::length(v) = sqrt(dot(v, v))`. -/
def length (sqrt : K → K) (u : vec3 K) : K := sqrt (dot u u)

/-- Normalisation `glm::normalize(v) = v * inversesqrt(dot(v, v))`.  For the zero
vector the C++ value is `0 * ∞ = NaN` in every component; the field `K` has no
`NaN`, and this definition gives the zero vector there (`1 / 0 = 0`). -/
def normalize (sqrt : K → K) (u : vec3 K) : vec3 K := smul (1 / sqrt (dot u u)) u

/-- Per-component clamp `glm::clamp(v, lo, hi) = min(max(v, lo), hi)`.  In C++
the comparisons of `min` and `max` are false on a `NaN` component, which is
returned unchanged; the field `K` has no `NaN`. -/
def clamp (u : vec3 K) (lo hi : K) : vec3 K :=
  ⟨min (max u.x lo) hi, min (max u.y lo) hi, min (max u.z lo) hi⟩

end vec3

namespace vec4

/-- Zero vector, the value of `vec4{}`. -/
def zero : vec4 K := ⟨0, 0, 0, 0⟩

/-- Component-wise sum. -/
def add (u v : vec4 K) : vec4 K := ⟨u.x + v.x, u.y + v.y, u.z + v.z, u.w + v.w⟩

/-- Component-wise difference. -/
def sub (u v : vec4 K) : vec4 K := ⟨u.x - v.x, u.y - v.y, u.z - v.z, u.w - v.w⟩

/-- Scalar times vector (`float * vec4`). -/
def smul (k : K) (u : vec4 K) : vec4 K := ⟨k * u.x, k * u.y, k * u.z, k * u.w⟩

/-- Dot product of 4-vectors (`glm::dot`). -/
def dot (u v : vec4 K) : K := u.x * v.x + u.y * v.y + u.z * v.z + u.w * v.w

/-- Truncation `vec3(v)` of a 4-vector to its xyz part. -/
def xyz (u : vec4 K) : vec3 K := ⟨u.x, u.y, u.z⟩

/-- Extension `vec4(v, w)` of a 3-vector by a fourth component. -/
def ofVec3 (u : vec3 K) (w : K) : vec4 K := ⟨u.x, u.y, u.z, w⟩

end vec4

namespace mat4

/-- Zero matrix, the value of `mat4{}`. -/
def zero : mat4 K := ⟨vec4.zero, vec4.zero, vec4.zero, vec4.zero⟩

/-- Identity matrix `mat4(1.0)`. -/
def identity : mat4 K := ⟨⟨1, 0, 0, 0⟩, ⟨0, 1, 0, 0⟩, ⟨0, 0, 1, 0⟩, ⟨0, 0, 0, 1⟩⟩

/-- Matrix times column vector: the combination of the columns by the
components of the vector. -/
def mulVec (m : mat4 K) (v : vec4 K) : vec4 K :=
  vec4.add (vec4.add (vec4.add (vec4.smul v.x m.c0) (vec4.smul v.y m.c1))
    (vec4.smul v.z m.c2)) (vec4.smul v.w m.c3)

/-- Matrix product: column `j` of `a * b` is `a` applied to column `j` of `b`. -/
def mul (a b : mat4 K) : mat4 K := ⟨mulVec a b.c0, mulVec a b.c1, mulVec a b.c2, mulVec a b.c3⟩

/-- Transposed matrix. -/
def transpose (m : mat4 K) : mat4 K :=
  ⟨⟨m.c0.x, m.c1.x, m.c2.x, m.c3.x⟩, ⟨m.c0.y, m.c1.y, m.c2.y, m.c3.y⟩,
   ⟨m.c0.z, m.c1.z, m.c2.z, m.c3.z⟩, ⟨m.c0.w, m.c1.w, m.c2.w, m.c3.w⟩⟩

/-- Translation matrix `glm::translate(mat4(1.0), p)`. -/
def translate (p : vec3 K) : mat4 K :=
  ⟨⟨1, 0, 0, 0⟩, ⟨0, 1, 0, 0⟩, ⟨0, 0, 1, 0⟩, ⟨p.x, p.y, p.z, 1⟩⟩

end mat4

end Algebra

/-! ## Scene model -/

/-- Specification of a sphere to render in a scene. -/
structure Sphere (K : Type) where
  id : Int
  name : String
  pos : vec3 K
  scl : vec3 K
  T : mat4 K
  Tinv : mat4 K
  TinvTranspose : mat4 K
  color : vec3 K
  Ka : K
  Kd : K
  Ks : K
  Kr : K
  n : Int

/-- Specification of a point light. -/
structure Light (K : Type) where
  name : String
  pos : vec4 K
  intensity : vec3 K

/-- Specification of a scene to render. -/
structure Scene (K : Type) where
  near : K
  left : K
  right : K
  bottom : K
  top : K
  res : ivec2
  spheres : List (Sphere K)
  lights : List (Light K)
  back : vec3 K
  ambient : vec3 K
  output : String

/-- A ray: starting point and direction vector. -/
structure Ray (K : Type) where
  start : vec4 K
  direction : vec4 K

/-- Details about the intersection of a ray with a sphere. -/
structure Intersection (K : Type) where
  sphere : Sphere K
  point : vec4 K
  normal : vec3 K
  distance : K

section Core

variable {K : Type} [LinearOrderedField K]

/-- Value-initialised sphere `Sphere{}`: every member zero or empty. -/
def Sphere.blank : Sphere K :=
  ⟨0, "", vec3.zero, vec3.zero, mat4.zero, mat4.zero, mat4.zero, vec3.zero, 0, 0, 0, 0, 0⟩

/-- Largest finite single-precision value, `numeric_limits<float>::max()`,
which is `(2 - 2⁻²³) · 2¹²⁷ = (2²⁴ - 1) · 2¹⁰⁴`. -/
def FLT_MAX : K := (2 ^ 24 - 1) * 2 ^ 104

/-- IEEE division restricted to finite results: dividing by zero gives `±∞` or
`NaN`, represented by `none`. -/
def fdiv (p q : K) : Option K := if q = 0 then none else some (p / q)

/-- Sum of two possibly non-finite values; non-finite operands give a
non-finite result. -/
def fadd (p q : Option K) : Option K :=
  match p, q with
  | some u, some v => some (u + v)
  | _, _ => none

/-- Difference of two possibly non-finite values; non-finite operands give a
non-finite result. -/
def fsub (p q : Option K) : Option K :=
  match p, q with
  | some u, some v => some (u - v)
  | _, _ => none

/-- Solutions of the reduced quadratic `a·t² + 2·b·t + c = 0`, in the order the
C++ function pushes them; `none` stands for a non-finite float. -/
def solveQuadratic (sqrt : K → K) (a b c : K) : List (Option K) :=
  let solutionCheck := (b * b) - (a * c)
  if solutionCheck ≥ 0 then
    let solutionOne := fadd (fdiv (-b) a) (fdiv (sqrt solutionCheck) a)
    if solutionCheck > 0 then
      let solutionTwo := fsub (fdiv (-b) a) (fdiv (sqrt solutionCheck) a)
      [solutionOne, solutionTwo]
    else
      [solutionOne]
  else
    []

/-- The ray transformed into the object frame of a sphere (`TinvRay`). -/
def TinvRay (sphere : Sphere K) (ray : Ray K) : Ray K :=
  ⟨mat4.mulVec sphere.Tinv ray.start, mat4.mulVec sphere.Tinv ray.direction⟩

/-- The coefficient `a` computed for one sphere in `closestIntersection`. -/
def quadA (sqrt : K → K) (ray : Ray K) (sphere : Sphere K) : K :=
  (vec3.length sqrt (vec4.xyz (TinvRay sphere ray).direction)) ^ 2

/-- The coefficient `b` computed for one sphere in `closestIntersection`. -/
def quadB (ray : Ray K) (sphere : Sphere K) : K :=
  vec3.dot (vec4.xyz (TinvRay sphere ray).start) (vec4.xyz (TinvRay sphere ray).direction)

/-- The coefficient `c` computed for one sphere in `closestIntersection`.  The
subtraction is exact here; in single precision `|start|² - 1` rounds back to
`|start|²` once `|start|² ≥ 2²⁴` (a sphere more than 4096 units from the ray
start, in its object frame). -/
def quadC (sqrt : K → K) (ray : Ray K) (sphere : Sphere K) : K :=
  (vec3.length sqrt (vec4.xyz (TinvRay sphere ray).start)) ^ 2 - 1

/-- The list `hitTimes` computed for one sphere in `closestIntersection`. -/
def hitTimes (sqrt : K → K) (ray : Ray K) (sphere : Sphere K) : List (Option K) :=
  solveQuadratic sqrt (quadA sqrt ray sphere) (quadB ray sphere) (quadC sqrt ray sphere)

/-- The vector `N = TinvRay.start + hitTime * TinvRay.direction`: the hit point
in the object frame of the sphere. -/
def objectPoint (ray : Ray K) (sphere : Sphere K) (hitTime : K) : vec4 K :=
  vec4.add (TinvRay sphere ray).start (vec4.smul hitTime (TinvRay sphere ray).direction)

/-- The intersection record written by the body of the inner loop for a hit of
`sphere` at parameter `hitTime`. -/
def recordHit (sqrt : K → K) (ray : Ray K) (sphere : Sphere K) (hitTime : K) : Intersection K :=
  let N := objectPoint ray sphere hitTime
  let Ninvtranspose := vec4.xyz (mat4.mulVec sphere.TinvTranspose N)
  { sphere := sphere
    point := vec4.add ray.start (vec4.smul hitTime ray.direction)
    normal := vec3.normalize sqrt Ninvtranspose
    distance := hitTime }

/-- One iteration of the inner loop `for (float hitTime : hitTimes)`; the state
is the pair `(intersection, intersectionFound)`. -/
def hitStep (sqrt : K → K) (ray : Ray K) (minHit : K) (sphere : Sphere K)
    (st : Intersection K × Bool) (hitTime : Option K) : Intersection K × Bool :=
  match hitTime with
  | none => st
  | some t =>
    if t > minHit ∧ t < st.1.distance then (recordHit sqrt ray sphere t, true) else st

/-- One iteration of the outer loop `for (const auto& sphere : scene.spheres)`. -/
def sphereStep (sqrt : K → K) (ray : Ray K) (sphereID : Int) (minHit : K)
    (st : Intersection K × Bool) (sphere : Sphere K) : Intersection K × Bool :=
  if sphere.id = sphereID then st
  else (hitTimes sqrt ray sphere).foldl (hitStep sqrt ray minHit sphere) st

/-- The closest qualifying intersection of `ray` with the spheres of the scene,
or nothing. -/
def closestIntersection (sqrt : K → K) (ray : Ray K) (scene : Scene K) (sphereID : Int)
    (minHit : K) : Option (Intersection K) :=
  let init : Intersection K × Bool := (⟨Sphere.blank, vec4.zero, vec3.zero, FLT_MAX⟩, false)
  let final := scene.spheres.foldl (sphereStep sqrt ray sphereID minHit) init
  if final.2 then some final.1 else none

/-- The mirror reflection of `ray` at `intersection`. -/
def getReflectedRay (ray : Ray K) (intersection : Intersection K) : Ray K :=
  let start := intersection.point
  let N := vec4.ofVec3 intersection.normal 0
  let direction := vec4.add (vec4.smul (-2 * vec4.dot N ray.direction) N) ray.direction
  ⟨start, direction⟩

/-- The ray `toLight` from the intersection point to the light. -/
def toLight (light : Light K) (intersection : Intersection K) : Ray K :=
  ⟨intersection.point, vec4.sub light.pos intersection.point⟩

/-- The ray `centerToLight` from the centre of the hit sphere to the light. -/
def centerToLight (light : Light K) (intersection : Intersection K) : Ray K :=
  ⟨vec4.ofVec3 intersection.sphere.pos 1,
   vec4.sub light.pos (vec4.ofVec3 intersection.sphere.pos 1)⟩

/-- The unit vector `L` of `shadowRay`, pointing from the hit point to the light. -/
def lightDir (sqrt : K → K) (light : Light K) (intersection : Intersection K) : vec3 K :=
  vec3.normalize sqrt (vec4.xyz (toLight light intersection).direction)

/-- The unit vector `R` of `shadowRay`: `normalize(-L - 2.0f * dot(N, -L) * N)`. -/
def reflectDir (sqrt : K → K) (N L : vec3 K) : vec3 K :=
  vec3.normalize sqrt
    (vec3.sub (vec3.neg L) (vec3.smul (2 * vec3.dot N (vec3.neg L)) N))

/-- The unit vector `V` of `shadowRay`, pointing from the hit point to the eye. -/
def viewDir (sqrt : K → K) (intersection : Intersection K) : vec3 K :=
  vec3.normalize sqrt (vec4.xyz (vec4.sub ⟨0, 0, 0, 1⟩ intersection.point))

/-- The tail of `shadowRay` (from the "special case" line to the return): the
diffuse plus specular contribution for shading normal `N`. -/
def phong (light : Light K) (sphere : Sphere K) (N L R V : vec3 K) : vec3 K :=
  let intensity : vec3 K := if vec3.dot N L < 1 / 10000 then vec3.zero else light.intensity
  let diffuse := vec3.mul (vec3.smul (vec3.dot N L) (vec3.smul sphere.Kd intensity)) sphere.color
  let specular := vec3.smul (vec3.dot R V ^ sphere.n) (vec3.smul sphere.Ks intensity)
  let specular := if vec3.dot R V < -(95 / 100) ∧ vec3.dot N L < 2 / 10 then vec3.zero else specular
  vec3.add diffuse specular

/-- The contribution of one light at an intersection. -/
def shadowRay (sqrt : K → K) (scene : Scene K) (light : Light K)
    (intersection : Intersection K) (isReflection : Bool) : vec3 K :=
  if (closestIntersection sqrt (toLight light intersection) scene intersection.sphere.id
      (1 / 100000)).isSome then
    vec3.zero
  else
    let N := intersection.normal
    let L := lightDir sqrt light intersection
    let R := reflectDir sqrt N L
    let V := viewDir sqrt intersection
    if isReflection = false ∧ vec3.dot N V < -(1 / 100000) then
      if (closestIntersection sqrt (centerToLight light intersection) scene (-1) 0).isSome then
        vec3.zero
      else
        phong light intersection.sphere (vec3.smul (-1) N) L R V
    else
      phong light intersection.sphere N L R V

/-- The constant `MAX_DEPTH` of `rayTrace`. -/
def MAX_DEPTH : Int := 2

/-- The value of `minHit` chosen by `rayTrace`. -/
def traceMinHit (sphereID : Int) : K := if sphereID = -1 then 1 else 1 / 100000

/-- The sum `lightColor` of the contributions of all lights. -/
def lightColor (sqrt : K → K) (scene : Scene K) (intersection : Intersection K)
    (depth : Int) : vec3 K :=
  scene.lights.foldl
    (fun acc light => vec3.add acc (shadowRay sqrt scene light intersection (decide (depth > 0))))
    vec3.zero

/-- The value `ambientColor` of `rayTrace`. -/
def ambientColor (scene : Scene K) (intersection : Intersection K) : vec3 K :=
  vec3.mul (vec3.smul intersection.sphere.Ka scene.ambient) intersection.sphere.color

/-- The recursive tracer with the depth bound as a parameter.  The recursion is
the C++ recursion; it is well founded because `depth` grows towards the bound. -/
def rayTraceD (sqrt : K → K) (maxDepth : Int) (ray : Ray K) (scene : Scene K) (depth : Int)
    (sphereID : Int) : vec3 K :=
  if _hd : depth > maxDepth then
    vec3.zero
  else
    match closestIntersection sqrt ray scene sphereID (traceMinHit sphereID) with
    | none => if sphereID = -1 then scene.back else vec3.zero
    | some intersection =>
      let reflectionColor : vec3 K :=
        if intersection.sphere.Kr ≠ 0 then
          vec3.smul intersection.sphere.Kr
            (rayTraceD sqrt maxDepth (getReflectedRay ray intersection) scene (depth + 1)
              intersection.sphere.id)
        else vec3.zero
      vec3.add (vec3.add (ambientColor scene intersection)
        (lightColor sqrt scene intersection depth)) reflectionColor
termination_by (maxDepth + 1 - depth).toNat
decreasing_by omega

/-- The recursive tracer of the program (`MAX_DEPTH = 2`). -/
def rayTrace (sqrt : K → K) (ray : Ray K) (scene : Scene K) (depth : Int) (sphereID : Int) :
    vec3 K :=
  rayTraceD sqrt MAX_DEPTH ray scene depth sphereID

/-- The tracer with an explicit budget: `fuel` bounds the number of nested
activations that query the intersector.  An activation with `depth > maxDepth`
returns black before it would consume any fuel; `none` means the budget was
exhausted. -/
def rayTraceFuel (sqrt : K → K) (maxDepth : Int) :
    Nat → Ray K → Scene K → Int → Int → Option (vec3 K)
  | fuel, ray, scene, depth, sphereID =>
    if depth > maxDepth then some vec3.zero
    else
      match fuel with
      | 0 => none
      | fuel + 1 =>
        match closestIntersection sqrt ray scene sphereID (traceMinHit sphereID) with
        | none => some (if sphereID = -1 then scene.back else vec3.zero)
        | some intersection =>
          let reflectionColor : Option (vec3 K) :=
            if intersection.sphere.Kr ≠ 0 then
              (rayTraceFuel sqrt maxDepth fuel (getReflectedRay ray intersection) scene
                (depth + 1) intersection.sphere.id).map (vec3.smul intersection.sphere.Kr)
            else some vec3.zero
          reflectionColor.map (vec3.add (vec3.add (ambientColor scene intersection)
            (lightColor sqrt scene intersection depth)))

/-- The primary ray through pixel `(column, row)`. -/
def rayThroughPixel (scene : Scene K) (column row : Int) (pixelCenter : Bool) : Ray K :=
  let c : K := if pixelCenter then (column : K) + 3 / 2 else (column : K)
  let r : K := if pixelCenter then (row : K) + 3 / 2 else (row : K)
  let r := r + 1
  let eye : vec4 K := ⟨0, 0, 0, 1⟩
  let direction : vec4 K :=
    ⟨scene.left + (2 * scene.right) * (c / (scene.res.x : K)),
     scene.bottom + (2 * scene.top) * (r / (scene.res.y : K)),
     -scene.near,
     0⟩
  ⟨eye, direction⟩

/-- The image filled with the background: `res.x` columns of `res.y` pixels. -/
def getBlankImage (scene : Scene K) : List (List (vec3 K)) :=
  List.replicate scene.res.x.toNat (List.replicate scene.res.y.toNat scene.back)

/-- The assignment `pixels[column][row] = color`. -/
def setPixel (pixels : List (List (vec3 K))) (column row : Nat) (color : vec3 K) :
    List (List (vec3 K)) :=
  pixels.set column ((pixels.getD column []).set row color)

/-- The value stored for one pixel by the rendering loop of `main`. -/
def pixelValue (sqrt : K → K) (scene : Scene K) (column row : Nat) : vec3 K :=
  let pixelRay := rayThroughPixel scene (column : Int) (row : Int) false
  let pixelColor := rayTrace sqrt pixelRay scene 0 (-1)
  vec3.clamp pixelColor 0 1

/-- The rendering loop of `main`: rows outside, columns inside, every pixel of
the blank image overwritten by its clamped colour. -/
def renderImage (sqrt : K → K) (scene : Scene K) : List (List (vec3 K)) :=
  (List.range scene.res.y.toNat).foldl
    (fun pixels row =>
      (List.range scene.res.x.toNat).foldl
        (fun pixels column => setPixel pixels column row (pixelValue sqrt scene column row))
        pixels)
    (getBlankImage scene)

/-- The read `pixels[x][y]` (zero outside the image, where C++ is undefined). -/
def getPixel (pixels : List (List (vec3 K))) (x y : Nat) : vec3 K :=
  (pixels.getD x []).getD y vec3.zero

/-- The conversion `(uint8_t)v` of a float: truncation towards zero, then the
value modulo 256 (C++ leaves the out-of-range case undefined). -/
def toUint8 [FloorRing K] (v : K) : Int := (if 0 ≤ v then ⌊v⌋ else ⌈v⌉) % 256

/-- The three bytes written for one pixel by the `P6` branch of `writePPM`. -/
def pixelBytes [FloorRing K] (color : vec3 K) : List Int :=
  let color := vec3.smul 255 color
  [toUint8 color.x, toUint8 color.y, toUint8 color.z]

/-- The pixel data written by `writePPM` for type `P6`: rows from `res.y - 1`
down to `0`, columns from `0` up to `res.x - 1`. -/
def writePPM [FloorRing K] (pixels : List (List (vec3 K))) (scene : Scene K) : List Int :=
  (List.range scene.res.y.toNat).reverse.flatMap
    (fun y => (List.range scene.res.x.toNat).flatMap (fun x => pixelBytes (getPixel pixels x y)))

end Core

/-! ## Assumptions on the data and auxiliary notions -/

section Assumptions

variable {K : Type} [LinearOrderedField K]

/-- The contract of `glm::sqrt` over the idealised numbers: on a non-negative
argument the result is the non-negative square root. -/
def IsSqrt (sqrt : K → K) : Prop := ∀ x : K, 0 ≤ x → 0 ≤ sqrt x ∧ sqrt x * sqrt x = x

/-- The scene with one more sphere inserted between the spheres `front` and
the spheres `rest`. -/
def insertSphere (scene : Scene K) (front rest : List (Sphere K)) (extra : Sphere K) : Scene K :=
  { scene with spheres := front ++ extra :: rest }

/-- An image of `X` columns with `Y` pixels each. -/
def Shape (X Y : Nat) (pixels : List (List (vec3 K))) : Prop :=
  pixels.length = X ∧ ∀ c, c < X → (pixels.getD c []).length = Y

/-- All three channels lie in `[0, 1]`. -/
def InUnit (p : vec3 K) : Prop := 0 ≤ p.x ∧ p.x ≤ 1 ∧ 0 ≤ p.y ∧ p.y ≤ 1 ∧ 0 ≤ p.z ∧ p.z ≤ 1

end Assumptions

/-! ## Fixtures -/

section Fixtures

variable {K : Type} [LinearOrderedField K]

/-- The sphere of scenario S2: centre `(0, 0, -3)`, scale `(1, 1, 1)`, colour
red, `Ka = 1`, `Kd = Ks = Kr = 0`. -/
def sphereS2 : Sphere K :=
  { id := 0
    name := "s1"
    pos := ⟨0, 0, -3⟩
    scl := ⟨1, 1, 1⟩
    T := mat4.translate ⟨0, 0, -3⟩
    Tinv := mat4.translate ⟨0, 0, 3⟩
    TinvTranspose := mat4.transpose (mat4.translate ⟨0, 0, 3⟩)
    color := ⟨1, 0, 0⟩
    Ka := 1
    Kd := 0
    Ks := 0
    Kr := 0
    n := 1 }

/-- The scene of scenario S2: one sphere, no lights, a 16 × 16 image. -/
def sceneS2 : Scene K :=
  { near := 1
    left := -1
    right := 1
    bottom := -1
    top := 1
    res := ⟨16, 16⟩
    spheres := [sphereS2]
    lights := []
    back := ⟨0, 0, 0⟩
    ambient := ⟨1, 1, 1⟩
    output := "s2.ppm" }

/-- The ray from the eye straight down the negative z axis. -/
def axisRay : Ray K := ⟨⟨0, 0, 0, 1⟩, ⟨0, 0, -1, 0⟩⟩

/-- A unit sphere far down the negative z axis, centre `(0, 0, -2⁵⁴)`. -/
def farSphere : Sphere K :=
  { id := 0
    name := "far"
    pos := ⟨0, 0, -(2 ^ 54)⟩
    scl := ⟨1, 1, 1⟩
    T := mat4.translate ⟨0, 0, -(2 ^ 54)⟩
    Tinv := mat4.translate ⟨0, 0, 2 ^ 54⟩
    TinvTranspose := mat4.transpose (mat4.translate ⟨0, 0, 2 ^ 54⟩)
    color := ⟨1, 0, 0⟩
    Ka := 1
    Kd := 0
    Ks := 0
    Kr := 0
    n := 1 }

/-- The scene holding only `farSphere`, seen through an image plane at distance
`near = 2⁻⁷⁴`. -/
def farScene : Scene K :=
  { near := 1 / 2 ^ 74
    left := -1
    right := 1
    bottom := -1
    top := 1
    res := ⟨16, 16⟩
    spheres := [farSphere]
    lights := []
    back := ⟨0, 0, 0⟩
    ambient := ⟨1, 1, 1⟩
    output := "far.ppm" }

/-- The ray from the eye down the negative z axis with direction of length
`2⁻⁷⁴`; it meets `farSphere` at the parameters `2¹²⁸ ± 2⁷⁴`. -/
def farRay : Ray K := ⟨⟨0, 0, 0, 1⟩, ⟨0, 0, -(1 / 2 ^ 74), 0⟩⟩

/-- A unit sphere with centre `(0, -6, -12)`, purely specular (`Ks = 1`) with
specular exponent `n`. -/
def glossySphere (n : Int) : Sphere K :=
  { id := 0
    name := "glossy"
    pos := ⟨0, -6, -12⟩
    scl := ⟨1, 1, 1⟩
    T := mat4.translate ⟨0, -6, -12⟩
    Tinv := mat4.translate ⟨0, 6, 12⟩
    TinvTranspose := mat4.transpose (mat4.translate ⟨0, 6, 12⟩)
    color := ⟨1, 1, 1⟩
    Ka := 0
    Kd := 0
    Ks := 1
    Kr := 0
    n := n }

/-- A unit sphere with centre `(0, -7/2, -10)`, halfway between the top of
`glossySphere` and `lampLight`. -/
def blockerSphere : Sphere K :=
  { id := 1
    name := "blocker"
    pos := ⟨0, -(7 / 2), -10⟩
    scl := ⟨1, 1, 1⟩
    T := mat4.translate ⟨0, -(7 / 2), -10⟩
    Tinv := mat4.translate ⟨0, 7 / 2, 10⟩
    TinvTranspose := mat4.transpose (mat4.translate ⟨0, 7 / 2, 10⟩)
    color := ⟨1, 1, 1⟩
    Ka := 0
    Kd := 0
    Ks := 0
    Kr := 0
    n := 1 }

/-- A white point light at `(0, -2, -8)`. -/
def lampLight : Light K := ⟨"lamp", ⟨0, -2, -8, 1⟩, ⟨1, 1, 1⟩⟩

/-- The scene with `glossySphere` and `lampLight` only. -/
def glossyScene (n : Int) : Scene K :=
  { near := 1
    left := -1
    right := 1
    bottom := -1
    top := 1
    res := ⟨16, 16⟩
    spheres := [glossySphere n]
    lights := [lampLight]
    back := ⟨0, 0, 0⟩
    ambient := ⟨0, 0, 0⟩
    output := "glossy.ppm" }

/-- The scene `glossyScene` with `blockerSphere` inserted. -/
def blockedScene (n : Int) : Scene K :=
  { near := 1
    left := -1
    right := 1
    bottom := -1
    top := 1
    res := ⟨16, 16⟩
    spheres := [glossySphere n, blockerSphere]
    lights := [lampLight]
    back := ⟨0, 0, 0⟩
    ambient := ⟨0, 0, 0⟩
    output := "glossy.ppm" }

/-- The hit of the eye ray with direction `(0, -5/12, -1)` on the top of
`glossySphere`: point `(0, -5, -12)`, normal `(0, 1, 0)`, parameter 12. -/
def glossyHit (n : Int) : Intersection K :=
  { sphere := glossySphere n
    point := ⟨0, -5, -12, 1⟩
    normal := ⟨0, 1, 0⟩
    distance := 12 }

/-- The eye ray that produces `glossyHit`. -/
def glossyRay : Ray K := ⟨⟨0, 0, 0, 1⟩, ⟨0, -(5 / 12), -1, 0⟩⟩

/-- The scene of scenario S1: no spheres, no lights, a 4 × 4 image, background
`(0.2, 0.4, 0.8)`; the frustum is arbitrary. -/
def sceneS1 (near left right bottom top : K) : Scene K :=
  { near := near
    left := left
    right := right
    bottom := bottom
    top := top
    res := ⟨4, 4⟩
    spheres := []
    lights := []
    back := ⟨2 / 10, 4 / 10, 8 / 10⟩
    ambient := ⟨0, 0, 0⟩
    output := "s1.ppm" }

/-- A scene without spheres whose frustum is not symmetric: `left = 0`,
`right = 1`, `bottom = 0`, `top = 1`. -/
def skewScene : Scene K :=
  { near := 1
    left := 0
    right := 1
    bottom := 0
    top := 1
    res := ⟨16, 16⟩
    spheres := []
    lights := []
    back := ⟨0, 0, 0⟩
    ambient := ⟨0, 0, 0⟩
    output := "skew.ppm" }

/-- A unit sphere around the eye. -/
def eyeSphere : Sphere K :=
  { id := 0
    name := "eye"
    pos := ⟨0, 0, 0⟩
    scl := ⟨1, 1, 1⟩
    T := mat4.identity
    Tinv := mat4.identity
    TinvTranspose := mat4.identity
    color := ⟨1, 0, 0⟩
    Ka := 1
    Kd := 0
    Ks := 0
    Kr := 0
    n := 1 }

/-- The scene holding only `eyeSphere`, with background `(0.2, 0.4, 0.8)`. -/
def eyeScene : Scene K :=
  { near := 1
    left := -1
    right := 1
    bottom := -1
    top := 1
    res := ⟨16, 16⟩
    spheres := [eyeSphere]
    lights := []
    back := ⟨2 / 10, 4 / 10, 8 / 10⟩
    ambient := ⟨1, 1, 1⟩
    output := "eye.ppm" }

/-- A second sphere with the geometry of `sphereS2`, id 1 and colour green. -/
def twinSphere : Sphere K :=
  { id := 1
    name := "s2"
    pos := ⟨0, 0, -3⟩
    scl := ⟨1, 1, 1⟩
    T := mat4.translate ⟨0, 0, -3⟩
    Tinv := mat4.translate ⟨0, 0, 3⟩
    TinvTranspose := mat4.transpose (mat4.translate ⟨0, 0, 3⟩)
    color := ⟨0, 1, 0⟩
    Ka := 1
    Kd := 0
    Ks := 0
    Kr := 0
    n := 1 }

/-- Scenario S2 with `twinSphere` added after its sphere. -/
def twinScene : Scene K :=
  { near := 1
    left := -1
    right := 1
    bottom := -1
    top := 1
    res := ⟨16, 16⟩
    spheres := [sphereS2, twinSphere]
    lights := []
    back := ⟨0, 0, 0⟩
    ambient := ⟨1, 1, 1⟩
    output := "twin.ppm" }

/-- A unit sphere with centre `(0, 0, -3/2)`: the image plane `z = -1` cuts it,
so the axis ray meets it at `t = 1/2` (before the plane) and at `t = 5/2`. -/
def nearSphere : Sphere K :=
  { id := 0
    name := "near"
    pos := ⟨0, 0, -(3 / 2)⟩
    scl := ⟨1, 1, 1⟩
    T := mat4.translate ⟨0, 0, -(3 / 2)⟩
    Tinv := mat4.translate ⟨0, 0, 3 / 2⟩
    TinvTranspose := mat4.transpose (mat4.translate ⟨0, 0, 3 / 2⟩)
    color := ⟨1, 0, 0⟩
    Ka := 0
    Kd := 1
    Ks := 0
    Kr := 1
    n := 1 }

/-- A white point light at `(0, 0, -2)`, strictly inside `nearSphere`. -/
def insideLight : Light K := ⟨"inside", ⟨0, 0, -2, 1⟩, ⟨1, 1, 1⟩⟩

/-- The scene holding only `nearSphere`, lit by `insideLight`. -/
def nearScene : Scene K :=
  { near := 1
    left := -1
    right := 1
    bottom := -1
    top := 1
    res := ⟨16, 16⟩
    spheres := [nearSphere]
    lights := [insideLight]
    back := ⟨0, 0, 0⟩
    ambient := ⟨0, 0, 0⟩
    output := "near.ppm" }

/-- The hit of the axis ray on the far side of `nearSphere`, seen from inside:
point `(0, 0, -5/2)`, outward normal `(0, 0, -1)`, parameter `5/2`. -/
def nearHit : Intersection K :=
  { sphere := nearSphere
    point := ⟨0, 0, -(5 / 2), 1⟩
    normal := ⟨0, 0, -1⟩
    distance := 5 / 2 }

/-- A 2 × 2 scene without spheres. -/
def tinyScene : Scene K :=
  { near := 1
    left := -1
    right := 1
    bottom := -1
    top := 1
    res := ⟨2, 2⟩
    spheres := []
    lights := []
    back := ⟨0, 0, 0⟩
    ambient := ⟨0, 0, 0⟩
    output := "tiny.ppm" }

/-- A 2 × 2 image with four different pixels, stored as `pixels[x][y]`:
`(0,0)` black, `(0,1)` red, `(1,0)` = `(1/2, 1/4, 1)`, `(1,1)` blue. -/
def tinyImage : List (List (vec3 K)) :=
  [[⟨0, 0, 0⟩, ⟨1, 0, 0⟩], [⟨1 / 2, 1 / 4, 1⟩, ⟨0, 0, 1⟩]]

end Fixtures

/-! ## The intersector -/

section Intersector

variable {K : Type} [LinearOrderedField K]

theorem recordHit_distance (sqrt : K → K) (ray : Ray K) (sphere : Sphere K) (t : K) :
    (recordHit sqrt ray sphere t).distance = t := rfl

theorem recordHit_sphere (sqrt : K → K) (ray : Ray K) (sphere : Sphere K) (t : K) :
    (recordHit sqrt ray sphere t).sphere = sphere := rfl

/-- The inner loop: the running distance never grows, ends below every
qualifying hit time of the list, and the state is either untouched or the
record of a qualifying hit time that improved on the incoming distance. -/
theorem hitStep_foldl (sqrt : K → K) (ray : Ray K) (minHit : K) (sphere : Sphere K)
    (hs : List (Option K)) (st : Intersection K × Bool) :
    (hs.foldl (hitStep sqrt ray minHit sphere) st).1.distance ≤ st.1.distance ∧
    (∀ t, some t ∈ hs → minHit < t →
      (hs.foldl (hitStep sqrt ray minHit sphere) st).1.distance ≤ t) ∧
    (hs.foldl (hitStep sqrt ray minHit sphere) st = st ∨
      ∃ t, some t ∈ hs ∧ minHit < t ∧ t < st.1.distance ∧
        hs.foldl (hitStep sqrt ray minHit sphere) st = (recordHit sqrt ray sphere t, true)) := by
  induction hs generalizing st with
  | nil => simp
  | cons h tl ih =>
    rw [List.foldl_cons]
    cases h with
    | none =>
      obtain ⟨h1, h2, h3⟩ := ih st
      refine ⟨h1, ?_, ?_⟩
      · intro t ht hlt
        simp only [List.mem_cons] at ht
        rcases ht with ht | ht
        · exact absurd ht (by simp)
        · exact h2 t ht hlt
      · rcases h3 with h3 | ⟨t, ht, hlt, hd, heq⟩
        · exact Or.inl h3
        · exact Or.inr ⟨t, List.mem_cons_of_mem _ ht, hlt, hd, heq⟩
    | some u =>
      by_cases hc : u > minHit ∧ u < st.1.distance
      · have hstep : hitStep sqrt ray minHit sphere st (some u)
            = (recordHit sqrt ray sphere u, true) := by
          simp only [hitStep, if_pos hc]
        rw [hstep]
        obtain ⟨h1, h2, h3⟩ := ih (recordHit sqrt ray sphere u, true)
        simp only [recordHit_distance] at h1 h2 h3
        refine ⟨le_trans h1 (le_of_lt hc.2), ?_, ?_⟩
        · intro t ht hlt
          simp only [List.mem_cons, Option.some.injEq] at ht
          rcases ht with ht | ht
          · rw [ht]; exact h1
          · exact h2 t ht hlt
        · right
          rcases h3 with h3 | ⟨t, ht, hlt, hd, heq⟩
          · exact ⟨u, List.mem_cons_self _ _, hc.1, hc.2, h3⟩
          · exact ⟨t, List.mem_cons_of_mem _ ht, hlt, lt_trans hd hc.2, heq⟩
      · have hstep : hitStep sqrt ray minHit sphere st (some u) = st := by
          simp only [hitStep, if_neg hc]
        rw [hstep]
        obtain ⟨h1, h2, h3⟩ := ih st
        refine ⟨h1, ?_, ?_⟩
        · intro t ht hlt
          simp only [List.mem_cons, Option.some.injEq] at ht
          rcases ht with ht | ht
          · subst ht
            have : st.1.distance ≤ t := by
              by_contra hcon
              exact hc ⟨hlt, lt_of_not_le hcon⟩
            exact le_trans h1 this
          · exact h2 t ht hlt
        · rcases h3 with h3 | ⟨t, ht, hlt, hd, heq⟩
          · exact Or.inl h3
          · exact Or.inr ⟨t, List.mem_cons_of_mem _ ht, hlt, hd, heq⟩

/-- The outer loop: the analogue of `hitStep_foldl` over the spheres that are
not excluded. -/
theorem sphereStep_foldl (sqrt : K → K) (ray : Ray K) (sphereID : Int) (minHit : K)
    (ss : List (Sphere K)) (st : Intersection K × Bool) :
    (ss.foldl (sphereStep sqrt ray sphereID minHit) st).1.distance ≤ st.1.distance ∧
    (∀ s ∈ ss, s.id ≠ sphereID → ∀ t, some t ∈ hitTimes sqrt ray s → minHit < t →
      (ss.foldl (sphereStep sqrt ray sphereID minHit) st).1.distance ≤ t) ∧
    (ss.foldl (sphereStep sqrt ray sphereID minHit) st = st ∨
      ∃ s ∈ ss, s.id ≠ sphereID ∧ ∃ t, some t ∈ hitTimes sqrt ray s ∧ minHit < t ∧
        t < st.1.distance ∧
        ss.foldl (sphereStep sqrt ray sphereID minHit) st = (recordHit sqrt ray s t, true)) := by
  induction ss generalizing st with
  | nil => simp
  | cons s tl ih =>
    rw [List.foldl_cons]
    by_cases hid : s.id = sphereID
    · have hstep : sphereStep sqrt ray sphereID minHit st s = st := by
        simp only [sphereStep, if_pos hid]
      rw [hstep]
      obtain ⟨h1, h2, h3⟩ := ih st
      refine ⟨h1, ?_, ?_⟩
      · intro s' hs' hne t ht hlt
        simp only [List.mem_cons] at hs'
        rcases hs' with hs' | hs'
        · subst hs'; exact absurd hid hne
        · exact h2 s' hs' hne t ht hlt
      · rcases h3 with h3 | ⟨s', hs', hne, t, ht, hlt, hd, heq⟩
        · exact Or.inl h3
        · exact Or.inr ⟨s', List.mem_cons_of_mem _ hs', hne, t, ht, hlt, hd, heq⟩
    · have hstep : sphereStep sqrt ray sphereID minHit st s
          = (hitTimes sqrt ray s).foldl (hitStep sqrt ray minHit s) st := by
        simp only [sphereStep, if_neg hid]
      rw [hstep]
      obtain ⟨g1, g2, g3⟩ := hitStep_foldl sqrt ray minHit s (hitTimes sqrt ray s) st
      obtain ⟨h1, h2, h3⟩ := ih ((hitTimes sqrt ray s).foldl (hitStep sqrt ray minHit s) st)
      refine ⟨le_trans h1 g1, ?_, ?_⟩
      · intro s' hs' hne t ht hlt
        simp only [List.mem_cons] at hs'
        rcases hs' with hs' | hs'
        · subst hs'; exact le_trans h1 (g2 t ht hlt)
        · exact h2 s' hs' hne t ht hlt
      · rcases h3 with h3 | ⟨s', hs', hne, t, ht, hlt, hd, heq⟩
        · rw [h3]
          rcases g3 with g3 | ⟨t, ht, hlt, hd, heq⟩
          · exact Or.inl g3
          · exact Or.inr ⟨s, List.mem_cons_self _ _, hid, t, ht, hlt, hd, heq⟩
        · exact Or.inr ⟨s', List.mem_cons_of_mem _ hs', hne, t, ht, hlt,
            lt_of_lt_of_le hd g1, heq⟩

/-- What a returned intersection is: the record of a hit time of a sphere that
is not excluded, above `minHit`, below `FLT_MAX`, and minimal among the
qualifying hit times of all such spheres. -/
theorem closestIntersection_some (sqrt : K → K) (ray : Ray K) (scene : Scene K)
    (sphereID : Int) (minHit : K) (X : Intersection K)
    (h : closestIntersection sqrt ray scene sphereID minHit = some X) :
    ∃ s ∈ scene.spheres, s.id ≠ sphereID ∧ ∃ t, some t ∈ hitTimes sqrt ray s ∧ minHit < t ∧
      t < FLT_MAX ∧ X = recordHit sqrt ray s t ∧
      ∀ s' ∈ scene.spheres, s'.id ≠ sphereID → ∀ t', some t' ∈ hitTimes sqrt ray s' →
        minHit < t' → t ≤ t' := by
  simp only [closestIntersection] at h
  obtain ⟨_, h2, h3⟩ := sphereStep_foldl sqrt ray sphereID minHit scene.spheres
    (⟨Sphere.blank, vec4.zero, vec3.zero, FLT_MAX⟩, false)
  rcases h3 with h3 | ⟨s, hs, hne, t, ht, hlt, hd, heq⟩
  · simp [h3] at h
  · rw [heq] at h h2
    simp only [if_true, Option.some.injEq] at h
    exact ⟨s, hs, hne, t, ht, hlt, hd, h.symm, h2⟩

/-- Nothing is returned exactly when no sphere that is not excluded has a hit
time strictly between `minHit` and `FLT_MAX`. -/
theorem closestIntersection_none_iff (sqrt : K → K) (ray : Ray K) (scene : Scene K)
    (sphereID : Int) (minHit : K) :
    closestIntersection sqrt ray scene sphereID minHit = none ↔
      ∀ s ∈ scene.spheres, s.id ≠ sphereID → ∀ t, some t ∈ hitTimes sqrt ray s →
        ¬ (minHit < t ∧ t < FLT_MAX) := by
  constructor
  · intro h s hs hne t ht hcon
    simp only [closestIntersection] at h
    obtain ⟨_, h2, h3⟩ := sphereStep_foldl sqrt ray sphereID minHit scene.spheres
      (⟨Sphere.blank, vec4.zero, vec3.zero, FLT_MAX⟩, false)
    rcases h3 with h3 | ⟨s', _, _, t', _, _, _, heq⟩
    · rw [h3] at h2
      exact absurd (h2 s hs hne t ht hcon.1) (not_le.mpr hcon.2)
    · rw [heq] at h
      simp at h
  · intro h
    cases hX : closestIntersection sqrt ray scene sphereID minHit with
    | none => rfl
    | some X =>
      obtain ⟨s, hs, hne, t, ht, hlt, hd, _, _⟩ :=
        closestIntersection_some sqrt ray scene sphereID minHit X hX
      exact absurd ⟨hlt, hd⟩ (h s hs hne t ht)

/-- The finite values returned by `solveQuadratic`: there are none when `a = 0`
or the discriminant is negative; otherwise the first is `-b/a + √Δ/a` and, for
a positive discriminant, the second is `-b/a - √Δ/a`. -/
theorem mem_solveQuadratic (sqrt : K → K) (a b c t : K) :
    some t ∈ solveQuadratic sqrt a b c ↔
      a ≠ 0 ∧ 0 ≤ b * b - a * c ∧
        (t = -b / a + sqrt (b * b - a * c) / a ∨
          (0 < b * b - a * c ∧ t = -b / a - sqrt (b * b - a * c) / a)) := by
  simp only [solveQuadratic, ge_iff_le, gt_iff_lt]
  by_cases ha : a = 0
  · subst ha
    simp only [fdiv, fadd, fsub, if_true]
    split_ifs <;> simp
  · simp only [fdiv, if_neg ha, fadd, fsub]
    split_ifs with h0 h1
    · simp only [List.mem_cons, Option.some.injEq, List.mem_singleton, List.not_mem_nil,
        or_false]
      constructor
      · rintro (h | h)
        · exact ⟨ha, h0, Or.inl h⟩
        · exact ⟨ha, h0, Or.inr ⟨h1, h⟩⟩
      · rintro ⟨_, _, h | ⟨_, h⟩⟩
        · exact Or.inl h
        · exact Or.inr h
    · simp only [List.mem_singleton, Option.some.injEq]
      constructor
      · intro h
        exact ⟨ha, h0, Or.inl h⟩
      · rintro ⟨_, _, h | ⟨h, _⟩⟩
        · exact h
        · exact absurd h h1
    · simp only [List.not_mem_nil, false_iff]
      rintro ⟨_, h, _⟩
      exact h0 h

/-- A returned intersection stores a sphere of the scene. -/
theorem closestIntersection_sphere_mem (sqrt : K → K) (ray : Ray K) (scene : Scene K)
    (sphereID : Int) (minHit : K) (X : Intersection K)
    (h : closestIntersection sqrt ray scene sphereID minHit = some X) :
    X.sphere ∈ scene.spheres := by
  obtain ⟨s, hs, _, t, _, _, _, hX, _⟩ := closestIntersection_some sqrt ray scene sphereID minHit X h
  rw [hX]
  exact hs

/-- An intersection is returned exactly when some sphere that is not excluded
has a hit time strictly between `minHit` and `FLT_MAX`. -/
theorem closestIntersection_isSome_iff (sqrt : K → K) (ray : Ray K) (scene : Scene K)
    (sphereID : Int) (minHit : K) :
    (closestIntersection sqrt ray scene sphereID minHit).isSome ↔
      ∃ s ∈ scene.spheres, s.id ≠ sphereID ∧
        ∃ t, some t ∈ hitTimes sqrt ray s ∧ minHit < t ∧ t < FLT_MAX := by
  rw [← not_iff_not, Bool.not_eq_true, Option.not_isSome, Option.isNone_iff_eq_none,
    closestIntersection_none_iff]
  constructor
  · rintro h ⟨s, hs, hne, t, ht, hcon⟩
    exact h s hs hne t ht hcon
  · intro h s hs hne t ht hcon
    exact h ⟨s, hs, hne, t, ht, hcon⟩

/-- More spheres never turn a hit into a miss. -/
theorem closestIntersection_isSome_mono (sqrt : K → K) (ray : Ray K) (scene scene' : Scene K)
    (sphereID : Int) (minHit : K) (hsub : ∀ s ∈ scene.spheres, s ∈ scene'.spheres)
    (h : (closestIntersection sqrt ray scene sphereID minHit).isSome) :
    (closestIntersection sqrt ray scene' sphereID minHit).isSome := by
  rw [closestIntersection_isSome_iff] at h ⊢
  obtain ⟨s, hs, rest⟩ := h
  exact ⟨s, hsub s hs, rest⟩

end Intersector

/-! ## The square root and the quadratic coefficients -/

section Geometry

variable {K : Type} [LinearOrderedField K]

theorem vec3.dot_self_nonneg (u : vec3 K) : 0 ≤ vec3.dot u u := by
  unfold vec3.dot
  nlinarith [mul_self_nonneg u.x, mul_self_nonneg u.y, mul_self_nonneg u.z]

theorem IsSqrt.sq_sqrt {sqrt : K → K} (hs : IsSqrt sqrt) {x : K} (hx : 0 ≤ x) :
    sqrt x ^ 2 = x := by
  rw [pow_two]
  exact (hs x hx).2

theorem quadA_eq {sqrt : K → K} (hs : IsSqrt sqrt) (ray : Ray K) (s : Sphere K) :
    quadA sqrt ray s
      = vec3.dot (vec4.xyz (TinvRay s ray).direction) (vec4.xyz (TinvRay s ray).direction) := by
  unfold quadA vec3.length
  exact hs.sq_sqrt (vec3.dot_self_nonneg _)

theorem quadC_eq {sqrt : K → K} (hs : IsSqrt sqrt) (ray : Ray K) (s : Sphere K) :
    quadC sqrt ray s
      = vec3.dot (vec4.xyz (TinvRay s ray).start) (vec4.xyz (TinvRay s ray).start) - 1 := by
  unfold quadC vec3.length
  rw [hs.sq_sqrt (vec3.dot_self_nonneg _)]

end Geometry

/-! ## Shading lemmas -/

section Shading

variable {K : Type} [LinearOrderedField K]

theorem vec3.add_zero_right (u : vec3 K) : vec3.add u vec3.zero = u := by
  simp [vec3.add, vec3.zero]

theorem lightColor_foldl_zero (sqrt : K → K) (scene : Scene K) (X : Intersection K) (b : Bool)
    (ls : List (Light K)) (h : ∀ l ∈ ls, shadowRay sqrt scene l X b = vec3.zero) :
    ls.foldl (fun acc light => vec3.add acc (shadowRay sqrt scene light X b)) vec3.zero
      = vec3.zero := by
  induction ls with
  | nil => rfl
  | cons l tl ih =>
    rw [List.foldl_cons, h l (List.mem_cons_self _ _), vec3.add_zero_right]
    exact ih (fun l' hl' => h l' (List.mem_cons_of_mem _ hl'))

theorem shadowRay_blocked (sqrt : K → K) (scene : Scene K) (light : Light K)
    (X : Intersection K) (isReflection : Bool)
    (h : (closestIntersection sqrt (toLight light X) scene X.sphere.id (1 / 100000)).isSome) :
    shadowRay sqrt scene light X isReflection = vec3.zero := by
  unfold shadowRay
  rw [if_pos h]

/-- With more spheres in the scene the contribution of a light is either
unchanged or replaced by black. -/
theorem shadowRay_more_spheres (sqrt : K → K) (scene scene' : Scene K) (light : Light K)
    (X : Intersection K) (isReflection : Bool)
    (hsub : ∀ s ∈ scene.spheres, s ∈ scene'.spheres) :
    shadowRay sqrt scene' light X isReflection = shadowRay sqrt scene light X isReflection ∨
      shadowRay sqrt scene' light X isReflection = vec3.zero := by
  unfold shadowRay
  by_cases h1' : (closestIntersection sqrt (toLight light X) scene' X.sphere.id
      (1 / 100000)).isSome
  · right
    rw [if_pos h1']
  · have h1 : ¬ (closestIntersection sqrt (toLight light X) scene X.sphere.id
        (1 / 100000)).isSome :=
      fun h => h1' (closestIntersection_isSome_mono sqrt _ scene scene' _ _ hsub h)
    rw [if_neg h1', if_neg h1]
    by_cases hin : isReflection = false ∧
        vec3.dot X.normal (viewDir sqrt X) < -(1 / 100000)
    · simp only [if_pos hin]
      by_cases h2' : (closestIntersection sqrt (centerToLight light X) scene' (-1) 0).isSome
      · right
        rw [if_pos h2']
      · have h2 : ¬ (closestIntersection sqrt (centerToLight light X) scene (-1) 0).isSome :=
          fun h => h2' (closestIntersection_isSome_mono sqrt _ scene scene' _ _ hsub h)
        left
        rw [if_neg h2', if_neg h2]
    · left
      simp only [if_neg hin]

end Shading

/-! ## The rendering loop -/

section ImageShape

variable {K : Type}

theorem Shape.setPixel {X Y : Nat} {pixels : List (List (vec3 K))} (h : Shape X Y pixels)
    (c₀ r₀ : Nat) (v : vec3 K) : Shape X Y (setPixel pixels c₀ r₀ v) := by
  obtain ⟨hl, hcol⟩ := h
  refine ⟨by simp [Raytracer.setPixel, hl], ?_⟩
  intro c hc
  have := hcol c hc
  simp only [Raytracer.setPixel, List.getD_eq_getElem?_getD, List.getElem?_set] at this ⊢
  by_cases h1 : c₀ = c
  · subst h1
    have hget : pixels[c₀]? = some pixels[c₀] := List.getElem?_eq_getElem (by omega)
    rw [hget] at this
    simp only [Option.getD_some] at this
    simp [hl, hc, this]
  · simp [h1, this]

theorem Shape.getBlankImage (scene : Scene K) :
    Shape scene.res.x.toNat scene.res.y.toNat (getBlankImage scene) := by
  refine ⟨by simp [Raytracer.getBlankImage], ?_⟩
  intro c hc
  simp [Raytracer.getBlankImage, List.getElem?_replicate, hc]

end ImageShape

section Image

variable {K : Type} [LinearOrderedField K]

theorem getPixel_setPixel (pixels : List (List (vec3 K))) (c₀ r₀ : Nat) (v : vec3 K)
    (hc : c₀ < pixels.length) (hr : r₀ < (pixels.getD c₀ []).length) (c r : Nat) :
    getPixel (setPixel pixels c₀ r₀ v) c r
      = if c = c₀ ∧ r = r₀ then v else getPixel pixels c r := by
  have hget : pixels[c₀]? = some pixels[c₀] := List.getElem?_eq_getElem hc
  simp only [getPixel, setPixel, List.getD_eq_getElem?_getD, List.getElem?_set, hget,
    Option.getD_some] at hr ⊢
  by_cases h1 : c₀ = c
  · subst h1
    by_cases h2 : r₀ = r
    · subst h2
      simp [hc, hr]
    · have h2' : ¬ r = r₀ := fun h => h2 h.symm
      simp [hc, h2, h2']
  · have h1' : ¬ c = c₀ := fun h => h1 h.symm
    simp [h1, h1']

/-- The inner loop over the columns `0 … n-1` of row `r`. -/
theorem columnLoop (f : Nat → vec3 K) (r X Y : Nat) (hr : r < Y) (n : Nat) (hn : n ≤ X)
    (pixels : List (List (vec3 K))) (hs : Shape X Y pixels) :
    Shape X Y ((List.range n).foldl (fun px c => setPixel px c r (f c)) pixels) ∧
    ∀ c r', getPixel ((List.range n).foldl (fun px c => setPixel px c r (f c)) pixels) c r'
      = if c < n ∧ r' = r then f c else getPixel pixels c r' := by
  induction n with
  | zero => simp [hs]
  | succ k ih =>
    obtain ⟨hs', hget⟩ := ih (by omega)
    rw [List.range_succ, List.foldl_append]
    simp only [List.foldl_cons, List.foldl_nil]
    refine ⟨hs'.setPixel _ _ _, ?_⟩
    intro c r'
    rw [getPixel_setPixel _ _ _ _ (by rw [hs'.1]; omega) (by rw [hs'.2 k (by omega)]; exact hr),
      hget]
    by_cases h1 : c = k ∧ r' = r
    · obtain ⟨hck, hrr⟩ := h1
      subst hck
      simp [hrr]
    · rw [if_neg h1]
      by_cases h2 : c < k ∧ r' = r
      · have : c < k + 1 ∧ r' = r := ⟨by omega, h2.2⟩
        rw [if_pos h2, if_pos this]
      · have : ¬ (c < k + 1 ∧ r' = r) := by
          rintro ⟨h3, h4⟩
          by_cases h5 : c = k
          · exact h1 ⟨h5, h4⟩
          · exact h2 ⟨by omega, h4⟩
        rw [if_neg h2, if_neg this]

/-- The outer loop over the rows `0 … m-1`. -/
theorem rowLoop (g : Nat → Nat → vec3 K) (X Y : Nat) (m : Nat) (hm : m ≤ Y)
    (pixels : List (List (vec3 K))) (hs : Shape X Y pixels) :
    Shape X Y ((List.range m).foldl
      (fun px r => (List.range X).foldl (fun px c => setPixel px c r (g c r)) px) pixels) ∧
    ∀ c r', getPixel ((List.range m).foldl
      (fun px r => (List.range X).foldl (fun px c => setPixel px c r (g c r)) px) pixels) c r'
      = if c < X ∧ r' < m then g c r' else getPixel pixels c r' := by
  induction m with
  | zero => simp [hs]
  | succ k ih =>
    obtain ⟨hs', hget⟩ := ih (by omega)
    rw [List.range_succ, List.foldl_append]
    simp only [List.foldl_cons, List.foldl_nil]
    obtain ⟨hs'', hget'⟩ := columnLoop (fun c => g c k) k X Y (by omega) X (le_refl X) _ hs'
    refine ⟨hs'', ?_⟩
    intro c r'
    rw [hget', hget]
    by_cases h1 : c < X ∧ r' = k
    · obtain ⟨hcx, hrk⟩ := h1
      subst hrk
      simp [hcx]
    · rw [if_neg h1]
      by_cases h2 : c < X ∧ r' < k
      · have : c < X ∧ r' < k + 1 := ⟨h2.1, by omega⟩
        rw [if_pos h2, if_pos this]
      · have : ¬ (c < X ∧ r' < k + 1) := by
          rintro ⟨h3, h4⟩
          by_cases h5 : r' = k
          · exact h1 ⟨h3, h5⟩
          · exact h2 ⟨h3, by omega⟩
        rw [if_neg h2, if_neg this]

/-- What the rendering loop leaves in the image. -/
theorem renderImage_spec (sqrt : K → K) (scene : Scene K) :
    Shape scene.res.x.toNat scene.res.y.toNat (renderImage sqrt scene) ∧
    ∀ column row, column < scene.res.x.toNat → row < scene.res.y.toNat →
      getPixel (renderImage sqrt scene) column row = pixelValue sqrt scene column row := by
  obtain ⟨hs, hget⟩ := rowLoop (fun c r => pixelValue sqrt scene c r) scene.res.x.toNat
    scene.res.y.toNat scene.res.y.toNat (le_refl _) _ (Shape.getBlankImage scene)
  refine ⟨hs, ?_⟩
  intro column row hc hr
  have := hget column row
  rw [if_pos ⟨hc, hr⟩] at this
  exact this

end Image

/-! ## Concrete evaluations over the reals -/

theorem isSqrt_real : IsSqrt Real.sqrt :=
  fun x hx => ⟨Real.sqrt_nonneg x, Real.mul_self_sqrt hx⟩

theorem hitTimes_axisRay_sphereS2 :
    hitTimes Real.sqrt (axisRay : Ray ℝ) sphereS2 = [some 4, some 2] := by
  simp [hitTimes, solveQuadratic, quadA, quadB, quadC, TinvRay, sphereS2, axisRay, mat4.mulVec,
    mat4.translate, vec4.add, vec4.smul, vec4.xyz, vec3.length, vec3.dot, fdiv, fadd, fsub]
  norm_num

theorem closestIntersection_axisRay_sceneS2 :
    closestIntersection Real.sqrt (axisRay : Ray ℝ) sceneS2 (-1) 1
      = some (recordHit Real.sqrt axisRay sphereS2 2) := by
  have hid : (sphereS2 : Sphere ℝ).id ≠ -1 := by simp [sphereS2]
  simp only [closestIntersection, sceneS2, List.foldl, sphereStep, if_neg hid,
    hitTimes_axisRay_sphereS2, hitStep, recordHit_distance, FLT_MAX]
  norm_num [recordHit_distance]

theorem sqrt_two_pow_148 : Real.sqrt (2 ^ 148 : ℝ) = 2 ^ 74 := by
  rw [show (2 : ℝ) ^ 148 = (2 ^ 74) ^ 2 by norm_num]
  exact Real.sqrt_sq (by positivity)

theorem hitTimes_farRay_farSphere :
    hitTimes Real.sqrt (farRay : Ray ℝ) farSphere
      = [some (2 ^ 128 + 2 ^ 74), some (2 ^ 128 - 2 ^ 74)] := by
  have h74 := sqrt_two_pow_148
  norm_num at h74
  simp [hitTimes, solveQuadratic, quadA, quadB, quadC, TinvRay, farSphere, farRay, mat4.mulVec,
    mat4.translate, vec4.add, vec4.smul, vec4.xyz, vec3.length, vec3.dot, fdiv, fadd, fsub]
  norm_num [h74]

theorem closestIntersection_farRay_farScene :
    closestIntersection Real.sqrt (farRay : Ray ℝ) farScene (-1) 1 = none := by
  have hid : (farSphere : Sphere ℝ).id ≠ -1 := by simp [farSphere]
  simp only [closestIntersection, farScene, List.foldl, sphereStep, if_neg hid,
    hitTimes_farRay_farSphere, hitStep, recordHit_distance, FLT_MAX]
  norm_num [recordHit_distance]

theorem sqrt_25 : Real.sqrt 25 = 5 := by
  rw [show (25 : ℝ) = 5 ^ 2 by norm_num]
  exact Real.sqrt_sq (by norm_num)

theorem sqrt_169 : Real.sqrt 169 = 13 := by
  rw [show (169 : ℝ) = 13 ^ 2 by norm_num]
  exact Real.sqrt_sq (by norm_num)

theorem hitTimes_toLight_blocker (n : Int) :
    hitTimes Real.sqrt (toLight (lampLight : Light ℝ) (glossyHit n)) blockerSphere
      = [some (7 / 10), some (3 / 10)] := by
  rw [hitTimes, quadA_eq isSqrt_real, quadC_eq isSqrt_real]
  simp [solveQuadratic, quadB, TinvRay, toLight, lampLight, glossyHit,
    blockerSphere, mat4.mulVec, mat4.translate, vec4.add, vec4.sub, vec4.smul, vec4.xyz,
    vec3.dot, fdiv, fadd, fsub]
  norm_num [sqrt_25]

theorem closestIntersection_toLight_blockedScene (n : Int) :
    closestIntersection Real.sqrt (toLight (lampLight : Light ℝ) (glossyHit n)) (blockedScene n)
        (glossyHit n : Intersection ℝ).sphere.id (1 / 100000)
      = some (recordHit Real.sqrt (toLight lampLight (glossyHit n)) blockerSphere (3 / 10)) := by
  have h0 : (glossySphere n : Sphere ℝ).id = (glossyHit n : Intersection ℝ).sphere.id := rfl
  have h1 : (blockerSphere : Sphere ℝ).id ≠ (glossyHit n : Intersection ℝ).sphere.id := by
    simp [blockerSphere, glossyHit, glossySphere]
  simp only [closestIntersection, blockedScene, List.foldl, sphereStep, if_pos h0, if_neg h1,
    hitTimes_toLight_blocker, hitStep, recordHit_distance, FLT_MAX]
  norm_num [recordHit_distance]

theorem closestIntersection_toLight_glossyScene (n : Int) :
    closestIntersection Real.sqrt (toLight (lampLight : Light ℝ) (glossyHit n)) (glossyScene n)
        (glossyHit n : Intersection ℝ).sphere.id (1 / 100000) = none := by
  have h0 : (glossySphere n : Sphere ℝ).id = (glossyHit n : Intersection ℝ).sphere.id := rfl
  simp only [closestIntersection, glossyScene, List.foldl, sphereStep, if_pos h0]
  simp

/-- Without the blocker the light contributes `(R·V)ⁿ = (-33/65)ⁿ` per channel. -/
theorem shadowRay_glossyScene (n : Int) :
    shadowRay Real.sqrt (glossyScene n : Scene ℝ) lampLight (glossyHit n) false
      = ⟨(-(33 / 65)) ^ n, (-(33 / 65)) ^ n, (-(33 / 65)) ^ n⟩ := by
  unfold shadowRay
  rw [closestIntersection_toLight_glossyScene]
  have hL : lightDir Real.sqrt (lampLight : Light ℝ) (glossyHit n) = ⟨0, 3 / 5, 4 / 5⟩ := by
    simp [lightDir, toLight, lampLight, glossyHit, vec3.normalize, vec3.smul, vec3.dot, vec4.sub,
      vec4.xyz]
    norm_num [sqrt_25]
  have hV : viewDir Real.sqrt (glossyHit n : Intersection ℝ) = ⟨0, 5 / 13, 12 / 13⟩ := by
    simp [viewDir, glossyHit, vec3.normalize, vec3.smul, vec3.dot, vec4.sub, vec4.xyz]
    norm_num [sqrt_169]
  have hR : reflectDir Real.sqrt (glossyHit n : Intersection ℝ).normal ⟨0, 3 / 5, 4 / 5⟩
      = ⟨0, 3 / 5, -(4 / 5)⟩ := by
    simp [reflectDir, glossyHit, vec3.normalize, vec3.smul, vec3.dot, vec3.sub, vec3.neg]
    norm_num
  simp only [hL, hV, hR]
  simp [glossyHit, glossySphere, lampLight, phong, vec3.dot, vec3.smul, vec3.add, vec3.mul,
    vec3.zero]
  norm_num

theorem shadowRay_blockedScene (n : Int) :
    shadowRay Real.sqrt (blockedScene n : Scene ℝ) lampLight (glossyHit n) false = vec3.zero := by
  unfold shadowRay
  rw [closestIntersection_toLight_blockedScene]
  rfl

/-- The record `glossyHit` is the intersection the eye ray `glossyRay` produces. -/
theorem closestIntersection_glossyRay (n : Int) :
    closestIntersection Real.sqrt (glossyRay : Ray ℝ) (glossyScene n) (-1) 1
      = some (glossyHit n) := by
  have hid : (glossySphere n : Sphere ℝ).id ≠ -1 := by simp [glossySphere]
  have ht : hitTimes Real.sqrt (glossyRay : Ray ℝ) (glossySphere n)
      = [some (2148 / 169), some 12] := by
    rw [hitTimes, quadA_eq isSqrt_real, quadC_eq isSqrt_real]
    have h25 : Real.sqrt (25 / 144) = 5 / 12 := by
      rw [show (25 / 144 : ℝ) = (5 / 12) ^ 2 by norm_num]
      exact Real.sqrt_sq (by norm_num)
    simp [solveQuadratic, quadB, TinvRay, glossyRay, glossySphere, mat4.mulVec, mat4.translate,
      vec4.add, vec4.smul, vec4.xyz, vec3.dot, fdiv, fadd, fsub]
    norm_num [h25]
  simp only [closestIntersection, glossyScene, List.foldl, sphereStep, if_neg hid, ht, hitStep,
    recordHit_distance, FLT_MAX]
  norm_num [recordHit_distance]
  simp [recordHit, glossyHit, objectPoint, TinvRay, glossyRay, glossySphere, mat4.mulVec,
    mat4.translate, mat4.transpose, vec4.add, vec4.smul, vec4.xyz, vec3.normalize, vec3.smul,
    vec3.dot]
  norm_num

/-! ## Claims about the intersector -/

section IntersectorClaims

variable {K : Type} [LinearOrderedField K]

/-- C1: if `closestIntersection` returns an intersection with parameter `t`,
then `t > tMin`; `t` is a candidate root of a sphere of the scene whose id
differs from `excludeSphereId` (a member of its `hitTimes`, of the form
`(-b ± √(b² - a·c)) / a` with `a ≠ 0` and `b² - a·c ≥ 0`), and that sphere is
the one stored in the result; and no sphere whose id differs from
`excludeSphereId` has a candidate root `t'` with `tMin < t' < t`. -/
theorem closestIntersection_closest (sqrt : K → K) (ray : Ray K) (scene : Scene K)
    (excludeSphereId : Int) (tMin : K) (X : Intersection K)
    (h : closestIntersection sqrt ray scene excludeSphereId tMin = some X) :
    tMin < X.distance ∧
    (∃ s ∈ scene.spheres, s.id ≠ excludeSphereId ∧ X.sphere = s ∧
      some X.distance ∈ hitTimes sqrt ray s ∧
      quadA sqrt ray s ≠ 0 ∧
      0 ≤ quadB ray s * quadB ray s - quadA sqrt ray s * quadC sqrt ray s ∧
      (X.distance = (-quadB ray s +
          sqrt (quadB ray s * quadB ray s - quadA sqrt ray s * quadC sqrt ray s))
            / quadA sqrt ray s ∨
       X.distance = (-quadB ray s -
          sqrt (quadB ray s * quadB ray s - quadA sqrt ray s * quadC sqrt ray s))
            / quadA sqrt ray s)) ∧
    (∀ s ∈ scene.spheres, s.id ≠ excludeSphereId → ∀ t', some t' ∈ hitTimes sqrt ray s →
      ¬ (tMin < t' ∧ t' < X.distance)) := by
  obtain ⟨s, hs, hne, t, ht, hlt, _, hX, hmin⟩ :=
    closestIntersection_some sqrt ray scene excludeSphereId tMin X h
  subst hX
  simp only [recordHit_distance, recordHit_sphere]
  refine ⟨hlt, ⟨s, hs, hne, rfl, ht, ?_⟩, ?_⟩
  · obtain ⟨ha, hd, hroot⟩ := (mem_solveQuadratic sqrt _ _ _ t).mp ht
    refine ⟨ha, hd, ?_⟩
    rcases hroot with hr | ⟨_, hr⟩
    · left; rw [hr, add_div]
    · right; rw [hr, sub_div]
  · intro s' hs' hne' t' ht' hcon
    exact absurd (hmin s' hs' hne' t' ht' hcon.1) (not_le.mpr hcon.2)

/-- Witness for C1: the axis ray of scenario S2 hits the sphere at `t = 2`,
beyond the image plane `tMin = 1`. -/
theorem closestIntersection_closest_witness :
    closestIntersection Real.sqrt (axisRay : Ray ℝ) sceneS2 (-1) 1
        = some (recordHit Real.sqrt axisRay sphereS2 2) ∧
      (1 : ℝ) < (recordHit Real.sqrt (axisRay : Ray ℝ) sphereS2 2).distance :=
  ⟨closestIntersection_axisRay_sceneS2,
   (closestIntersection_closest Real.sqrt axisRay sceneS2 (-1) 1 _
      closestIntersection_axisRay_sceneS2).1⟩

/-- C2, as stated, fails: the running best distance starts at the finite
`FLT_MAX`, so for the far sphere `closestIntersection` returns nothing although
the sphere has the candidate root `2¹²⁸ - 2⁷⁴ > tMin = 1`. -/
theorem closestIntersection_misses_huge_root :
    closestIntersection Real.sqrt (farRay : Ray ℝ) farScene (-1) 1 = none ∧
      farSphere ∈ (farScene : Scene ℝ).spheres ∧ (farSphere : Sphere ℝ).id ≠ -1 ∧
      some (2 ^ 128 - 2 ^ 74) ∈ hitTimes Real.sqrt (farRay : Ray ℝ) farSphere ∧
      (1 : ℝ) < 2 ^ 128 - 2 ^ 74 := by
  refine ⟨closestIntersection_farRay_farScene, by simp [farScene], by simp [farSphere], ?_,
    by norm_num⟩
  rw [hitTimes_farRay_farSphere]
  simp

/-- C2, amended: `closestIntersection` returns nothing exactly when no sphere
whose id differs from `excludeSphereId` has a candidate root `t` with
`tMin < t < FLT_MAX`; every candidate root in that range produces a returned
intersection. -/
theorem closestIntersection_none_iff_no_candidate (sqrt : K → K) (ray : Ray K)
    (scene : Scene K) (excludeSphereId : Int) (tMin : K) :
    closestIntersection sqrt ray scene excludeSphereId tMin = none ↔
      ¬ ∃ s ∈ scene.spheres, s.id ≠ excludeSphereId ∧
        ∃ t, some t ∈ hitTimes sqrt ray s ∧ tMin < t ∧ t < FLT_MAX := by
  rw [closestIntersection_none_iff]
  constructor
  · rintro h ⟨s, hs, hne, t, ht, hcon⟩
    exact h s hs hne t ht hcon
  · intro h s hs hne t ht hcon
    exact h ⟨s, hs, hne, t, ht, hcon⟩

end IntersectorClaims

/-! ## Claims about the recursive tracer -/

section TracerClaims

variable {K : Type} [LinearOrderedField K]

/-- One unfolding of the tracer below the depth bound. -/
theorem rayTraceD_eq (sqrt : K → K) (maxDepth : Int) (ray : Ray K) (scene : Scene K)
    (depth sphereID : Int) (hd : ¬ depth > maxDepth) :
    rayTraceD sqrt maxDepth ray scene depth sphereID =
      match closestIntersection sqrt ray scene sphereID (traceMinHit sphereID) with
      | none => if sphereID = -1 then scene.back else vec3.zero
      | some intersection =>
        vec3.add (vec3.add (ambientColor scene intersection)
          (lightColor sqrt scene intersection depth))
          (if intersection.sphere.Kr ≠ 0 then
            vec3.smul intersection.sphere.Kr
              (rayTraceD sqrt maxDepth (getReflectedRay ray intersection) scene (depth + 1)
                intersection.sphere.id)
          else vec3.zero) := by
  rw [rayTraceD]
  simp only [dif_neg hd]

/-- Beyond the depth bound the tracer returns black. -/
theorem rayTraceD_cutoff (sqrt : K → K) (maxDepth : Int) (ray : Ray K) (scene : Scene K)
    (depth sphereID : Int) (hd : depth > maxDepth) :
    rayTraceD sqrt maxDepth ray scene depth sphereID = vec3.zero := by
  rw [rayTraceD]
  simp only [dif_pos hd]

/-- A budget of `maxDepth + 1 - depth` nested intersector queries is enough for
the budgeted tracer to return the value of the tracer. -/
theorem rayTraceFuel_eq (sqrt : K → K) (maxDepth : Int) (scene : Scene K) (fuel : Nat) :
    ∀ (ray : Ray K) (depth sphereID : Int), (maxDepth + 1 - depth).toNat ≤ fuel →
      rayTraceFuel sqrt maxDepth fuel ray scene depth sphereID
        = some (rayTraceD sqrt maxDepth ray scene depth sphereID) := by
  induction fuel with
  | zero =>
    intro ray depth sphereID hf
    have hd : depth > maxDepth := by omega
    rw [rayTraceD_cutoff sqrt maxDepth ray scene depth sphereID hd]
    simp only [rayTraceFuel, if_pos hd]
  | succ k ih =>
    intro ray depth sphereID hf
    by_cases hd : depth > maxDepth
    · rw [rayTraceD_cutoff sqrt maxDepth ray scene depth sphereID hd]
      simp only [rayTraceFuel, if_pos hd]
    · rw [rayTraceD_eq sqrt maxDepth ray scene depth sphereID hd]
      simp only [rayTraceFuel, if_neg hd]
      cases hX : closestIntersection sqrt ray scene sphereID (traceMinHit sphereID) with
      | none => rfl
      | some X =>
        simp only []
        by_cases hkr : X.sphere.Kr ≠ 0
        · have hrec := ih (getReflectedRay ray X) (depth + 1) X.sphere.id (by omega)
          simp only [if_pos hkr, hrec, Option.map_some']
        · simp only [if_neg hkr, Option.map_some']

/-- C5: `rayTrace` terminates for every ray, scene, depth and excluded id
(whatever the `Kr` of the spheres): the budgeted tracer returns the value of
`rayTrace` as soon as the budget of nested intersector queries reaches
`MAX_DEPTH + 1 - depth`; a call with `depth > MAX_DEPTH = 2` returns `(0,0,0)`
with budget 0, that is without querying the intersector; a call started at
depth 0 needs a budget of only `MAX_DEPTH + 1 = 3`; and below the bound a hit
on a sphere with `Kr ≠ 0` recurses with `depth + 1`. -/
theorem rayTrace_terminates (sqrt : K → K) (ray : Ray K) (scene : Scene K)
    (depth sphereID : Int) :
    (∀ fuel : Nat, (MAX_DEPTH + 1 - depth).toNat ≤ fuel →
      rayTraceFuel sqrt MAX_DEPTH fuel ray scene depth sphereID
        = some (rayTrace sqrt ray scene depth sphereID)) ∧
    (depth > MAX_DEPTH →
      rayTraceFuel sqrt MAX_DEPTH 0 ray scene depth sphereID = some vec3.zero ∧
      rayTrace sqrt ray scene depth sphereID = vec3.zero) ∧
    rayTraceFuel sqrt MAX_DEPTH 3 ray scene 0 sphereID
      = some (rayTrace sqrt ray scene 0 sphereID) ∧
    (∀ X : Intersection K, ¬ depth > MAX_DEPTH →
      closestIntersection sqrt ray scene sphereID (traceMinHit sphereID) = some X →
      X.sphere.Kr ≠ 0 →
      rayTrace sqrt ray scene depth sphereID =
        vec3.add (vec3.add (ambientColor scene X) (lightColor sqrt scene X depth))
          (vec3.smul X.sphere.Kr
            (rayTrace sqrt (getReflectedRay ray X) scene (depth + 1) X.sphere.id))) := by
  refine ⟨fun fuel hf => rayTraceFuel_eq sqrt MAX_DEPTH scene fuel ray depth sphereID hf, ?_,
    rayTraceFuel_eq sqrt MAX_DEPTH scene 3 ray 0 sphereID (by decide), ?_⟩
  · intro hd
    refine ⟨?_, rayTraceD_cutoff sqrt MAX_DEPTH ray scene depth sphereID hd⟩
    simp only [rayTraceFuel, if_pos hd]
  · intro X hd hX hkr
    unfold rayTrace
    rw [rayTraceD_eq sqrt MAX_DEPTH ray scene depth sphereID hd, hX]
    simp only [if_pos hkr]

/-- Witness for C5: at depth 3 the tracer is cut off, at depth 0 three nested
queries suffice. -/
theorem rayTrace_terminates_witness :
    (3 : Int) > MAX_DEPTH ∧
      rayTraceFuel Real.sqrt MAX_DEPTH 0 (axisRay : Ray ℝ) sceneS2 3 0 = some vec3.zero ∧
      rayTraceFuel Real.sqrt MAX_DEPTH 3 (axisRay : Ray ℝ) sceneS2 0 (-1)
        = some (rayTrace Real.sqrt axisRay sceneS2 0 (-1)) :=
  ⟨by decide,
   ((rayTrace_terminates Real.sqrt axisRay sceneS2 3 0).2.1 (by decide)).1,
   (rayTrace_terminates Real.sqrt axisRay sceneS2 0 (-1)).2.2.1⟩

/-- C8: with the depth bound as a parameter, on a scene in which every sphere
has `Kr = 0` the result of the tracer at depth 0 with exclusion disabled is the
same for every bound `MAX_DEPTH ≥ 0`; a budget of one intersector query
suffices (no recursive call is made); the result is the background on a miss
and ambient + direct on a hit. -/
theorem reflection_bound (sqrt : K → K) (ray : Ray K) (scene : Scene K)
    (hkr : ∀ s ∈ scene.spheres, s.Kr = 0) (m₁ m₂ : Int) (h₁ : 0 ≤ m₁) (h₂ : 0 ≤ m₂) :
    rayTraceD sqrt m₁ ray scene 0 (-1) = rayTraceD sqrt m₂ ray scene 0 (-1) ∧
    rayTraceFuel sqrt m₁ 1 ray scene 0 (-1) = some (rayTraceD sqrt m₁ ray scene 0 (-1)) ∧
    (closestIntersection sqrt ray scene (-1) 1 = none →
      rayTraceD sqrt m₁ ray scene 0 (-1) = scene.back) ∧
    (∀ X, closestIntersection sqrt ray scene (-1) 1 = some X →
      rayTraceD sqrt m₁ ray scene 0 (-1)
        = vec3.add (ambientColor scene X) (lightColor sqrt scene X 0)) := by
  have key : ∀ m : Int, 0 ≤ m →
      rayTraceD sqrt m ray scene 0 (-1) =
        match closestIntersection sqrt ray scene (-1) 1 with
        | none => scene.back
        | some X => vec3.add (ambientColor scene X) (lightColor sqrt scene X 0) := by
    intro m hm
    rw [rayTraceD_eq sqrt m ray scene 0 (-1) (by omega)]
    have hmin : traceMinHit (-1 : Int) = (1 : K) := by simp [traceMinHit]
    rw [hmin]
    cases hX : closestIntersection sqrt ray scene (-1) 1 with
    | none => simp
    | some X =>
      have := hkr _ (closestIntersection_sphere_mem sqrt ray scene (-1) 1 X hX)
      simp [this, vec3.add_zero_right]
  refine ⟨by rw [key m₁ h₁, key m₂ h₂], ?_, ?_, ?_⟩
  · have hd : ¬ (0 : Int) > m₁ := by omega
    have hmin : traceMinHit (-1 : Int) = (1 : K) := by simp [traceMinHit]
    rw [key m₁ h₁]
    simp only [rayTraceFuel, if_neg hd, hmin]
    cases hX : closestIntersection sqrt ray scene (-1) 1 with
    | none => simp
    | some X =>
      have := hkr _ (closestIntersection_sphere_mem sqrt ray scene (-1) 1 X hX)
      simp [this, vec3.add_zero_right]
  · intro hX
    rw [key m₁ h₁, hX]
  · intro X hX
    rw [key m₁ h₁, hX]

/-- Witness for C8: scenario S2 (its sphere has `Kr = 0`) traced with the
bounds 0 and 5. -/
theorem reflection_bound_witness :
    (∀ s ∈ (sceneS2 : Scene ℝ).spheres, s.Kr = 0) ∧ (0 : Int) ≤ 0 ∧ (0 : Int) ≤ 5 ∧
      rayTraceD Real.sqrt 0 (axisRay : Ray ℝ) sceneS2 0 (-1)
        = rayTraceD Real.sqrt 5 (axisRay : Ray ℝ) sceneS2 0 (-1) :=
  ⟨by simp [sceneS2, sphereS2], le_refl 0, by decide,
   (reflection_bound Real.sqrt axisRay sceneS2 (by simp [sceneS2, sphereS2]) 0 5 (le_refl 0)
      (by decide)).1⟩

/-- C9: if the shadow ray from the hit point to the light has any intersection
returned by `closestIntersection` with the hit sphere excluded and
`tMin = 10⁻⁵` (at whatever parameter), `shadowRay` returns `(0,0,0)` for that
light; and when this holds for every light of the scene, `rayTrace` returns the
ambient term plus the reflection term only. -/
theorem hard_shadow (sqrt : K → K) (scene : Scene K) (light : Light K) (X Y : Intersection K)
    (isReflection : Bool)
    (hY : closestIntersection sqrt (toLight light X) scene X.sphere.id (1 / 100000) = some Y) :
    shadowRay sqrt scene light X isReflection = vec3.zero ∧
    (∀ (ray : Ray K) (depth sphereID : Int), ¬ depth > MAX_DEPTH →
      closestIntersection sqrt ray scene sphereID (traceMinHit sphereID) = some X →
      (∀ l ∈ scene.lights,
        (closestIntersection sqrt (toLight l X) scene X.sphere.id (1 / 100000)).isSome) →
      rayTrace sqrt ray scene depth sphereID =
        vec3.add (ambientColor scene X)
          (if X.sphere.Kr ≠ 0 then
            vec3.smul X.sphere.Kr
              (rayTrace sqrt (getReflectedRay ray X) scene (depth + 1) X.sphere.id)
          else vec3.zero)) := by
  refine ⟨shadowRay_blocked sqrt scene light X isReflection (by rw [hY]; rfl), ?_⟩
  intro ray depth sphereID hd hX hall
  unfold rayTrace
  rw [rayTraceD_eq sqrt MAX_DEPTH ray scene depth sphereID hd, hX]
  have hl : lightColor sqrt scene X depth = vec3.zero :=
    lightColor_foldl_zero sqrt scene X _ scene.lights
      (fun l hl => shadowRay_blocked sqrt scene l X _ (hall l hl))
  simp only [hl, vec3.add_zero_right]
/-- Witness for C9: in `blockedScene` the shadow ray from the top of the glossy
sphere to the lamp hits the blocker at `t = 3/10`. -/
theorem hard_shadow_witness :
    closestIntersection Real.sqrt (toLight (lampLight : Light ℝ) (glossyHit 1))
        (blockedScene 1) (glossyHit 1 : Intersection ℝ).sphere.id (1 / 100000)
      = some (recordHit Real.sqrt (toLight lampLight (glossyHit 1)) blockerSphere (3 / 10)) ∧
    shadowRay Real.sqrt (blockedScene 1 : Scene ℝ) lampLight (glossyHit 1) false = vec3.zero :=
  ⟨closestIntersection_toLight_blockedScene 1,
   (hard_shadow Real.sqrt (blockedScene 1) lampLight (glossyHit 1) _ false
      (closestIntersection_toLight_blockedScene 1)).1⟩

end TracerClaims

/-! ## Claims about shading -/

section ShadingClaims

variable {K : Type} [LinearOrderedField K]

/-- C7, as stated, fails: the specular term `Ks · I · (R·V)ⁿ` is not clamped,
so with `n = 1` the un-occluded contribution of the lamp at the top of the
glossy sphere (the hit of the eye ray `glossyRay`) is `-33/65` per channel (all
coefficients in `[0,1]`, colour and intensity non-negative); inserting the
blocker, which the shadow ray meets at `t = 3/10` between the hit point and the
light, raises every channel to 0. -/
theorem shadow_insertion_increases_channel :
    closestIntersection Real.sqrt (glossyRay : Ray ℝ) (glossyScene 1) (-1) 1
        = some (glossyHit 1) ∧
    shadowRay Real.sqrt (glossyScene 1 : Scene ℝ) lampLight (glossyHit 1) false
        = ⟨-(33 / 65), -(33 / 65), -(33 / 65)⟩ ∧
    shadowRay Real.sqrt
        (insertSphere (glossyScene 1 : Scene ℝ) [glossySphere 1] [] blockerSphere)
        lampLight (glossyHit 1) false = vec3.zero ∧
    some (3 / 10) ∈ hitTimes Real.sqrt (toLight (lampLight : Light ℝ) (glossyHit 1))
        blockerSphere ∧
    (shadowRay Real.sqrt (glossyScene 1 : Scene ℝ) lampLight (glossyHit 1) false).x
      < (shadowRay Real.sqrt
          (insertSphere (glossyScene 1 : Scene ℝ) [glossySphere 1] [] blockerSphere)
          lampLight (glossyHit 1) false).x := by
  have h1 := shadowRay_glossyScene 1
  have h2 : shadowRay Real.sqrt
      (insertSphere (glossyScene 1 : Scene ℝ) [glossySphere 1] [] blockerSphere)
      lampLight (glossyHit 1) false = vec3.zero := shadowRay_blockedScene 1
  simp only [zpow_one] at h1
  refine ⟨closestIntersection_glossyRay 1, h1, h2, ?_, ?_⟩
  · rw [hitTimes_toLight_blocker]
    simp
  · rw [h1, h2]
    norm_num [vec3.zero]

/-- C7, amended: inserting one more sphere into the scene either leaves
`shadowRay(scene, light, intersection, isReflection)` unchanged or replaces it
by `(0,0,0)`; hence it never increases a channel that is non-negative without
the extra sphere; and an extra sphere (not the hit sphere) that the shadow ray
meets at a parameter in `(10⁻⁵, FLT_MAX)`, in particular one between the hit
point and the light, makes the result `(0,0,0)`. -/
theorem shadow_monotone_nonneg (sqrt : K → K) (scene : Scene K) (front rest : List (Sphere K))
    (extra : Sphere K) (light : Light K) (X : Intersection K) (isReflection : Bool)
    (hsplit : scene.spheres = front ++ rest) :
    (shadowRay sqrt (insertSphere scene front rest extra) light X isReflection
        = shadowRay sqrt scene light X isReflection ∨
      shadowRay sqrt (insertSphere scene front rest extra) light X isReflection = vec3.zero) ∧
    (0 ≤ (shadowRay sqrt scene light X isReflection).x →
      (shadowRay sqrt (insertSphere scene front rest extra) light X isReflection).x
        ≤ (shadowRay sqrt scene light X isReflection).x) ∧
    (0 ≤ (shadowRay sqrt scene light X isReflection).y →
      (shadowRay sqrt (insertSphere scene front rest extra) light X isReflection).y
        ≤ (shadowRay sqrt scene light X isReflection).y) ∧
    (0 ≤ (shadowRay sqrt scene light X isReflection).z →
      (shadowRay sqrt (insertSphere scene front rest extra) light X isReflection).z
        ≤ (shadowRay sqrt scene light X isReflection).z) ∧
    (extra.id ≠ X.sphere.id →
      (∃ t, some t ∈ hitTimes sqrt (toLight light X) extra ∧ 1 / 100000 < t ∧ t < FLT_MAX) →
      shadowRay sqrt (insertSphere scene front rest extra) light X isReflection = vec3.zero) := by
  have hsub : ∀ s ∈ scene.spheres, s ∈ (insertSphere scene front rest extra).spheres := by
    intro s hs
    rw [hsplit] at hs
    simp only [insertSphere, List.mem_append, List.mem_cons] at hs ⊢
    tauto
  have hor := shadowRay_more_spheres sqrt scene (insertSphere scene front rest extra) light X
    isReflection hsub
  refine ⟨hor, ?_, ?_, ?_, ?_⟩
  · intro h0
    rcases hor with h | h
    · rw [h]
    · rw [h]; exact h0
  · intro h0
    rcases hor with h | h
    · rw [h]
    · rw [h]; exact h0
  · intro h0
    rcases hor with h | h
    · rw [h]
    · rw [h]; exact h0
  · intro hid ht
    apply shadowRay_blocked
    rw [closestIntersection_isSome_iff]
    exact ⟨extra, by simp [insertSphere], hid, ht⟩
/-- Witness for C7: with the even exponent `n = 2` the un-occluded contribution
`(33/65)²` is non-negative and the blocker lowers it to 0. -/
theorem shadow_monotone_nonneg_witness :
    (glossyScene 2 : Scene ℝ).spheres = [glossySphere 2] ++ [] ∧
    (0 : ℝ) ≤ (shadowRay Real.sqrt (glossyScene 2 : Scene ℝ) lampLight (glossyHit 2) false).x ∧
    (shadowRay Real.sqrt
        (insertSphere (glossyScene 2 : Scene ℝ) [glossySphere 2] [] blockerSphere)
        lampLight (glossyHit 2) false).x
      ≤ (shadowRay Real.sqrt (glossyScene 2 : Scene ℝ) lampLight (glossyHit 2) false).x :=
  have h0 : (0 : ℝ) ≤
      (shadowRay Real.sqrt (glossyScene 2 : Scene ℝ) lampLight (glossyHit 2) false).x := by
    rw [shadowRay_glossyScene 2]
    norm_num
  ⟨rfl, h0,
   (shadow_monotone_nonneg Real.sqrt (glossyScene 2) [glossySphere 2] [] blockerSphere lampLight
      (glossyHit 2) false rfl).2.1 h0⟩

end ShadingClaims

/-! ## Claims about frame assembly -/

section FrameClaims

variable {K : Type} [LinearOrderedField K]

theorem clamp_of_inUnit (p : vec3 K) (h : InUnit p) : vec3.clamp p 0 1 = p := by
  obtain ⟨h1, h2, h3, h4, h5, h6⟩ := h
  simp only [vec3.clamp, max_eq_left h1, max_eq_left h3, max_eq_left h5, min_eq_left h2,
    min_eq_left h4, min_eq_left h6]

theorem rayTrace_no_spheres (sqrt : K → K) (ray : Ray K) (scene : Scene K)
    (h : scene.spheres = []) : rayTrace sqrt ray scene 0 (-1) = scene.back := by
  unfold rayTrace
  rw [rayTraceD_eq sqrt MAX_DEPTH ray scene 0 (-1) (by decide)]
  have : closestIntersection sqrt ray scene (-1) (traceMinHit (-1)) = none := by
    simp [closestIntersection, h]
  rw [this]
  simp

/-- C6: for every scene with zero spheres and every pixel `(column, row)` in
range, the stored pixel `clamp(rayTrace(rayThroughPixel(scene, column, row),
scene))` equals `clamp(scene.back)`, which is `scene.back` itself when `back`
lies in `[0,1]`; for the S1 fixture (4 × 4, `back = (0.2, 0.4, 0.8)`, any
frustum) the written pixel data is sixteen times the bytes `(51, 102, 204)`. -/
theorem background_fallthrough [FloorRing K] (sqrt : K → K) :
    (∀ scene : Scene K, scene.spheres = [] →
      ∀ column row : Nat, (column : Int) < scene.res.x → (row : Int) < scene.res.y →
        getPixel (renderImage sqrt scene) column row = vec3.clamp scene.back 0 1 ∧
        vec3.clamp
            (rayTrace sqrt (rayThroughPixel scene (column : Int) (row : Int) false) scene 0 (-1))
            0 1 = vec3.clamp scene.back 0 1 ∧
        (InUnit scene.back → getPixel (renderImage sqrt scene) column row = scene.back)) ∧
    (∀ near left right bottom top : K,
      writePPM (renderImage sqrt (sceneS1 near left right bottom top))
          (sceneS1 near left right bottom top)
        = [51, 102, 204, 51, 102, 204, 51, 102, 204, 51, 102, 204,
           51, 102, 204, 51, 102, 204, 51, 102, 204, 51, 102, 204,
           51, 102, 204, 51, 102, 204, 51, 102, 204, 51, 102, 204,
           51, 102, 204, 51, 102, 204, 51, 102, 204, 51, 102, 204]) := by
  have hgen : ∀ scene : Scene K, scene.spheres = [] →
      ∀ column row : Nat, (column : Int) < scene.res.x → (row : Int) < scene.res.y →
        getPixel (renderImage sqrt scene) column row = vec3.clamp scene.back 0 1 := by
    intro scene hsph column row hc hr
    rw [(renderImage_spec sqrt scene).2 column row (by omega) (by omega)]
    simp only [pixelValue, rayTrace_no_spheres sqrt _ scene hsph]
  refine ⟨fun scene hsph column row hc hr =>
    ⟨hgen scene hsph column row hc hr, by rw [rayTrace_no_spheres sqrt _ scene hsph], fun hu => by
      rw [hgen scene hsph column row hc hr, clamp_of_inUnit _ hu]⟩, ?_⟩
  intro near left right bottom top
  have hpix : ∀ x y : Nat, x < 4 → y < 4 →
      pixelBytes (getPixel (renderImage sqrt (sceneS1 near left right bottom top)) x y)
        = [51, 102, 204] := by
    intro x y hx hy
    rw [hgen _ rfl x y (by simp only [sceneS1]; omega) (by simp only [sceneS1]; omega)]
    have hb : vec3.clamp (sceneS1 near left right bottom top).back 0 1
        = (⟨2 / 10, 4 / 10, 8 / 10⟩ : vec3 K) := by
      apply clamp_of_inUnit
      simp only [InUnit, sceneS1]
      norm_num
    rw [hb]
    simp only [pixelBytes, vec3.smul, toUint8]
    norm_num
  have hrange : List.range 4 = [0, 1, 2, 3] := by decide
  have hres : (sceneS1 near left right bottom top).res = ⟨4, 4⟩ := rfl
  have h4 : (4 : Int).toNat = 4 := by decide
  simp only [writePPM, hres, h4, hrange, List.reverse_cons, List.reverse_nil, List.nil_append,
    List.cons_append, List.flatMap_cons, List.flatMap_nil, List.append_nil]
  simp [hpix]
/-- Witness for C6: pixel `(0, 0)` of scenario S1. -/
theorem background_fallthrough_witness :
    (sceneS1 1 (-1) 1 (-1) 1 : Scene ℝ).spheres = [] ∧
    ((0 : Nat) : Int) < (sceneS1 1 (-1) 1 (-1) 1 : Scene ℝ).res.x ∧
    ((0 : Nat) : Int) < (sceneS1 1 (-1) 1 (-1) 1 : Scene ℝ).res.y ∧
    getPixel (renderImage Real.sqrt (sceneS1 1 (-1) 1 (-1) 1 : Scene ℝ)) 0 0
      = vec3.clamp (sceneS1 1 (-1) 1 (-1) 1 : Scene ℝ).back 0 1 :=
  ⟨rfl, by decide, by decide,
   ((background_fallthrough Real.sqrt).1 (sceneS1 1 (-1) 1 (-1) 1) rfl 0 0 (by decide)
      (by decide)).1⟩

end FrameClaims

/-! ## The written pixel data -/

section Blocks

variable {α β : Type}

/-- In a concatenation of blocks of equal length `k`, the `i`-th block starts
at offset `k * i`. -/
theorem flatMap_block (f : α → List β) (k : Nat) (l : List α)
    (hk : ∀ a ∈ l, (f a).length = k) (i : Nat) (a : α) (hi : l[i]? = some a) :
    ((l.flatMap f).drop (k * i)).take k = f a := by
  induction l generalizing i with
  | nil => simp at hi
  | cons b tl ih =>
    have hb : (f b).length = k := hk b (List.mem_cons_self _ _)
    rw [List.flatMap_cons]
    cases i with
    | zero =>
      simp only [List.getElem?_cons_zero, Option.some.injEq] at hi
      subst hi
      simp only [Nat.mul_zero, List.drop_zero]
      rw [List.take_append_of_le_length (by omega), List.take_of_length_le (by omega)]
    | succ j =>
      simp only [List.getElem?_cons_succ] at hi
      have hdrop : (f b ++ tl.flatMap f).drop (k * (j + 1)) = (tl.flatMap f).drop (k * j) := by
        rw [List.drop_append_eq_append_drop, List.drop_of_length_le (by rw [hb]; nlinarith),
          List.nil_append, hb]
        congr 1
        rw [Nat.mul_succ]; omega
      rw [hdrop]
      exact ih (fun c hc => hk c (List.mem_cons_of_mem _ hc)) j hi

theorem flatMap_length_const (f : α → List β) (k : Nat) (l : List α)
    (hk : ∀ a ∈ l, (f a).length = k) : (l.flatMap f).length = k * l.length := by
  induction l with
  | nil => simp
  | cons a tl ih =>
    rw [List.flatMap_cons, List.length_append, hk a (List.mem_cons_self _ _),
      ih (fun b hb => hk b (List.mem_cons_of_mem _ hb)), List.length_cons, Nat.mul_succ]
    omega

end Blocks

section Bytes

variable {K : Type} [LinearOrderedField K] [FloorRing K]

theorem pixelBytes_length (p : vec3 K) : (pixelBytes p).length = 3 := rfl

/-- For a channel in `[0, 1]` the written byte is the integer part of
`255 · channel`. -/
theorem toUint8_of_unit (v : K) (h0 : 0 ≤ v) (h1 : v ≤ 1) : toUint8 (255 * v) = ⌊255 * v⌋ := by
  have hnn : (0 : K) ≤ 255 * v := by positivity
  have hle : 255 * v ≤ 255 := by nlinarith
  have hf0 : 0 ≤ ⌊255 * v⌋ := Int.floor_nonneg.mpr hnn
  have hf1 : ⌊255 * v⌋ < 256 := by
    rw [Int.floor_lt]
    push_cast
    linarith
  simp only [toUint8, if_pos hnn]
  exact Int.emod_eq_of_lt hf0 hf1

/-- The row written for image row `y`. -/
theorem rowBytes_length (pixels : List (List (vec3 K))) (X y : Nat) :
    ((List.range X).flatMap (fun x => pixelBytes (getPixel pixels x y))).length = 3 * X := by
  rw [flatMap_length_const _ 3 _ (fun _ _ => pixelBytes_length _), List.length_range]

/-- The bytes of pixel `(x, y)` in the data written by `writePPM`. -/
theorem writePPM_pixel (pixels : List (List (vec3 K))) (scene : Scene K) (x y : Nat)
    (hx : x < scene.res.x.toNat) (hy : y < scene.res.y.toNat) :
    ((writePPM pixels scene).drop
        (3 * ((scene.res.y.toNat - 1 - y) * scene.res.x.toNat + x))).take 3
      = pixelBytes (getPixel pixels x y) := by
  have hrow : (List.range scene.res.y.toNat).reverse[scene.res.y.toNat - 1 - y]? = some y := by
    rw [List.getElem?_reverse (by rw [List.length_range]; omega), List.length_range]
    rw [List.getElem?_range (by omega)]
    congr 1
    omega
  have hblock := flatMap_block
    (fun y => (List.range scene.res.x.toNat).flatMap (fun x => pixelBytes (getPixel pixels x y)))
    (3 * scene.res.x.toNat) (List.range scene.res.y.toNat).reverse
    (fun _ _ => rowBytes_length pixels _ _) _ y hrow
  have hpix := flatMap_block (fun x => pixelBytes (getPixel pixels x y)) 3
    (List.range scene.res.x.toNat) (fun _ _ => pixelBytes_length _) x x (List.getElem?_range hx)
  simp only [] at hblock hpix
  rw [← hblock, List.drop_take, List.take_take, List.drop_drop] at hpix
  rw [← hpix]
  unfold writePPM
  have h1 : min 3 (3 * scene.res.x.toNat - 3 * x) = 3 := by omega
  have h2 : 3 * scene.res.x.toNat * (scene.res.y.toNat - 1 - y) + 3 * x
      = 3 * ((scene.res.y.toNat - 1 - y) * scene.res.x.toNat + x) := by ring
  rw [h1, h2]

/-- The byte written for a value whose integer part is `n`, `0 ≤ n < 256`. -/
theorem toUint8_eq (v : K) (n : Int) (h0 : 0 ≤ n) (h1 : n < 256)
    (hl : (n : K) ≤ v) (hu : v < (n : K) + 1) : toUint8 v = n := by
  have hv : (0 : K) ≤ v := le_trans (by exact_mod_cast h0) hl
  have hf : ⌊v⌋ = n := Int.floor_eq_iff.mpr ⟨hl, hu⟩
  simp only [toUint8, if_pos hv, hf]
  exact Int.emod_eq_of_lt h0 h1

end Bytes

/-! ## Further lemmas on the intersector and on reflection -/

section MoreLemmas

variable {K : Type} [LinearOrderedField K]

/-- A hit time equal to the recorded distance does not replace the record
(the comparison is strict). -/
theorem hitStep_equal (sqrt : K → K) (ray : Ray K) (minHit : K) (sphere : Sphere K)
    (st : Intersection K × Bool) : hitStep sqrt ray minHit sphere st (some st.1.distance) = st := by
  simp [hitStep]

/-- The loop over a list of spheres unfolds through `closestIntersection`. -/
theorem closestIntersection_eq_foldl (sqrt : K → K) (ray : Ray K) (scene : Scene K)
    (sphereID : Int) (minHit : K) :
    closestIntersection sqrt ray scene sphereID minHit =
      if (scene.spheres.foldl (sphereStep sqrt ray sphereID minHit)
          (⟨Sphere.blank, vec4.zero, vec3.zero, FLT_MAX⟩, false)).2 then
        some (scene.spheres.foldl (sphereStep sqrt ray sphereID minHit)
          (⟨Sphere.blank, vec4.zero, vec3.zero, FLT_MAX⟩, false)).1
      else none := rfl

theorem traceMinHit_primary : traceMinHit (-1 : Int) = (1 : K) := by simp [traceMinHit]

theorem traceMinHit_secondary (sphereID : Int) (h : sphereID ≠ -1) :
    traceMinHit sphereID = (1 / 100000 : K) := by simp [traceMinHit, h]

end MoreLemmas

/-! ## Further concrete evaluations over the reals -/

theorem hitTimes_axisRay_eyeSphere :
    hitTimes Real.sqrt (axisRay : Ray ℝ) eyeSphere = [some 1, some (-1)] := by
  rw [hitTimes, quadA_eq isSqrt_real, quadC_eq isSqrt_real]
  simp [solveQuadratic, quadB, TinvRay, axisRay, eyeSphere, mat4.mulVec, mat4.identity,
    vec4.add, vec4.smul, vec4.xyz, vec3.dot, fdiv, fadd, fsub]

/-- With `tMin = 10⁻⁵` the axis ray hits the unit sphere around the eye at
`t = 1`. -/
theorem closestIntersection_axisRay_eyeScene :
    closestIntersection Real.sqrt (axisRay : Ray ℝ) eyeScene (-1) (1 / 100000)
      = some (recordHit Real.sqrt axisRay eyeSphere 1) := by
  have hid : (eyeSphere : Sphere ℝ).id ≠ -1 := by simp [eyeSphere]
  simp only [closestIntersection, eyeScene, List.foldl, sphereStep, if_neg hid,
    hitTimes_axisRay_eyeSphere, hitStep, recordHit_distance, FLT_MAX]
  norm_num [recordHit_distance]

theorem hitTimes_axisRay_twinSphere :
    hitTimes Real.sqrt (axisRay : Ray ℝ) twinSphere = [some 4, some 2] := by
  rw [hitTimes, quadA_eq isSqrt_real, quadC_eq isSqrt_real]
  simp [solveQuadratic, quadB, TinvRay, twinSphere, axisRay, mat4.mulVec,
    mat4.translate, vec4.add, vec4.smul, vec4.xyz, vec3.dot, fdiv, fadd, fsub]
  norm_num

theorem sqrt_quarter : Real.sqrt (1 / 4) = 1 / 2 := by
  rw [show (1 / 4 : ℝ) = (1 / 2) ^ 2 by norm_num]
  exact Real.sqrt_sq (by norm_num)

theorem hitTimes_axisRay_nearSphere :
    hitTimes Real.sqrt (axisRay : Ray ℝ) nearSphere = [some (5 / 2), some (1 / 2)] := by
  rw [hitTimes, quadA_eq isSqrt_real, quadC_eq isSqrt_real]
  simp [solveQuadratic, quadB, TinvRay, nearSphere, axisRay, mat4.mulVec,
    mat4.translate, vec4.add, vec4.smul, vec4.xyz, vec3.dot, fdiv, fadd, fsub]
  norm_num [sqrt_quarter]

/-- The record `nearHit` is the intersection the axis ray produces in
`nearScene` as a primary ray. -/
theorem closestIntersection_axisRay_nearScene :
    closestIntersection Real.sqrt (axisRay : Ray ℝ) nearScene (-1) 1 = some nearHit := by
  have hid : (nearSphere : Sphere ℝ).id ≠ -1 := by simp [nearSphere]
  simp only [closestIntersection, nearScene, List.foldl, sphereStep, if_neg hid,
    hitTimes_axisRay_nearSphere, hitStep, recordHit_distance, FLT_MAX]
  norm_num [recordHit_distance]
  simp [recordHit, nearHit, objectPoint, TinvRay, axisRay, nearSphere, mat4.mulVec,
    mat4.translate, mat4.transpose, vec4.add, vec4.smul, vec4.xyz, vec3.normalize, vec3.smul,
    vec3.dot]
  norm_num

theorem sqrt_4 : Real.sqrt 4 = 2 := by
  rw [show (4 : ℝ) = 2 ^ 2 by norm_num]
  exact Real.sqrt_sq (by norm_num)

theorem lightDir_insideLight_nearHit :
    lightDir Real.sqrt (insideLight : Light ℝ) nearHit = ⟨0, 0, 1⟩ := by
  simp [lightDir, toLight, insideLight, nearHit, vec3.normalize, vec3.smul, vec3.dot, vec4.sub,
    vec4.xyz]
  norm_num [sqrt_4]

theorem viewDir_nearHit : viewDir Real.sqrt (nearHit : Intersection ℝ) = ⟨0, 0, 1⟩ := by
  simp [viewDir, nearHit, vec3.normalize, vec3.smul, vec3.dot, vec4.sub, vec4.xyz]
  norm_num [sqrt_4, sqrt_25]

theorem hitTimes_centerToLight_nearSphere :
    hitTimes Real.sqrt (centerToLight (insideLight : Light ℝ) nearHit) nearSphere
      = [some 2, some (-2)] := by
  rw [hitTimes, quadA_eq isSqrt_real, quadC_eq isSqrt_real]
  simp [solveQuadratic, quadB, TinvRay, centerToLight, insideLight, nearHit, nearSphere,
    mat4.mulVec, mat4.translate, vec4.add, vec4.sub, vec4.smul, vec4.xyz, vec4.ofVec3, vec3.dot,
    fdiv, fadd, fsub]
  norm_num [sqrt_4]

theorem closestIntersection_toLight_nearScene :
    closestIntersection Real.sqrt (toLight (insideLight : Light ℝ) nearHit) nearScene
      (nearHit : Intersection ℝ).sphere.id (1 / 100000) = none := by
  have hid' : (nearSphere : Sphere ℝ).id = (nearHit : Intersection ℝ).sphere.id := rfl
  simp only [closestIntersection, nearScene, List.foldl, sphereStep, if_pos hid']
  simp

theorem closestIntersection_centerToLight_nearScene :
    closestIntersection Real.sqrt (centerToLight (insideLight : Light ℝ) nearHit) nearScene
      (-1) 0
      = some (recordHit Real.sqrt (centerToLight insideLight nearHit) nearSphere 2) := by
  have hid : (nearSphere : Sphere ℝ).id ≠ -1 := by simp [nearSphere]
  simp only [closestIntersection, nearScene, List.foldl, sphereStep, if_neg hid,
    hitTimes_centerToLight_nearSphere, hitStep, recordHit_distance, FLT_MAX]
  norm_num [recordHit_distance]

/-- In scenario S2 a pixel whose primary ray hits the sphere is stored as red. -/
theorem sceneS2_hit_pixel (column row : Nat) (hc : column < 16) (hr : row < 16)
    (X : Intersection ℝ)
    (hX : closestIntersection Real.sqrt
      (rayThroughPixel (sceneS2 : Scene ℝ) (column : Int) (row : Int) false) sceneS2 (-1) 1
        = some X) :
    getPixel (renderImage Real.sqrt (sceneS2 : Scene ℝ)) column row = ⟨1, 0, 0⟩ := by
  rw [(renderImage_spec Real.sqrt sceneS2).2 column row (by simpa [sceneS2] using hc)
    (by simpa [sceneS2] using hr)]
  have hmem := closestIntersection_sphere_mem Real.sqrt _ sceneS2 (-1) 1 X hX
  simp only [sceneS2, List.mem_singleton] at hmem
  have hmin : traceMinHit (-1 : Int) = (1 : ℝ) := by simp [traceMinHit]
  simp only [pixelValue, rayTrace]
  rw [rayTraceD_eq Real.sqrt MAX_DEPTH _ sceneS2 0 (-1) (by decide), hmin, hX]
  simp only [ambientColor, lightColor, hmem]
  simp [sceneS2, sphereS2, vec3.add, vec3.smul, vec3.mul, vec3.zero, vec3.clamp]

/-- In scenario S2 a pixel whose primary ray misses is stored as black. -/
theorem sceneS2_miss_pixel (column row : Nat) (hc : column < 16) (hr : row < 16)
    (hX : closestIntersection Real.sqrt
      (rayThroughPixel (sceneS2 : Scene ℝ) (column : Int) (row : Int) false) sceneS2 (-1) 1
        = none) :
    getPixel (renderImage Real.sqrt (sceneS2 : Scene ℝ)) column row = ⟨0, 0, 0⟩ := by
  rw [(renderImage_spec Real.sqrt sceneS2).2 column row (by simpa [sceneS2] using hc)
    (by simpa [sceneS2] using hr)]
  have hmin : traceMinHit (-1 : Int) = (1 : ℝ) := by simp [traceMinHit]
  simp only [pixelValue, rayTrace]
  rw [rayTraceD_eq Real.sqrt MAX_DEPTH _ sceneS2 0 (-1) (by decide), hmin, hX]
  simp [sceneS2, vec3.clamp]

theorem pixelBytes_red : pixelBytes (⟨1, 0, 0⟩ : vec3 ℝ) = [255, 0, 0] := by
  simp [pixelBytes, vec3.smul, toUint8]

theorem pixelBytes_black : pixelBytes (⟨0, 0, 0⟩ : vec3 ℝ) = [0, 0, 0] := by
  simp [pixelBytes, vec3.smul, toUint8]

theorem rayThroughPixel_sceneS2_center :
    rayThroughPixel (sceneS2 : Scene ℝ) ((8 : Nat) : Int) ((7 : Nat) : Int) false = axisRay := by
  simp [rayThroughPixel, sceneS2, axisRay]
  norm_num

/-- The primary rays through the four corner pixels of scenario S2 have no hit
time on the sphere (negative discriminant). -/
theorem hitTimes_sceneS2_corners :
    hitTimes Real.sqrt (rayThroughPixel (sceneS2 : Scene ℝ) ((0 : Nat) : Int) ((0 : Nat) : Int)
      false) sphereS2 = [] ∧
    hitTimes Real.sqrt (rayThroughPixel (sceneS2 : Scene ℝ) ((15 : Nat) : Int) ((0 : Nat) : Int)
      false) sphereS2 = [] ∧
    hitTimes Real.sqrt (rayThroughPixel (sceneS2 : Scene ℝ) ((0 : Nat) : Int) ((15 : Nat) : Int)
      false) sphereS2 = [] ∧
    hitTimes Real.sqrt (rayThroughPixel (sceneS2 : Scene ℝ) ((15 : Nat) : Int) ((15 : Nat) : Int)
      false) sphereS2 = [] := by
  refine ⟨?_, ?_, ?_, ?_⟩ <;>
  · rw [hitTimes, quadA_eq isSqrt_real, quadC_eq isSqrt_real]
    simp [solveQuadratic, quadB, TinvRay, rayThroughPixel, sceneS2, sphereS2, mat4.mulVec,
      mat4.translate, vec4.add, vec4.smul, vec4.xyz, vec3.dot]
    norm_num

theorem closestIntersection_of_hitTimes_nil (ray : Ray ℝ)
    (h : hitTimes Real.sqrt ray sphereS2 = []) :
    closestIntersection Real.sqrt ray sceneS2 (-1) 1 = none := by
  rw [closestIntersection_none_iff]
  intro s hs _ t ht
  simp only [sceneS2, List.mem_singleton] at hs
  rw [hs, h] at ht
  simp at ht

/-- The pixel data written for `tinyImage`: the row `y = 1` first, then `y = 0`. -/
theorem writePPM_tinyImage :
    writePPM (tinyImage : List (List (vec3 ℝ))) tinyScene
      = [255, 0, 0, 0, 0, 255, 0, 0, 0, 127, 63, 255] := by
  have hrange : List.range 2 = [0, 1] := by decide
  have hres : (tinyScene : Scene ℝ).res = ⟨2, 2⟩ := rfl
  have h2 : (2 : Int).toNat = 2 := by decide
  have b0 : toUint8 ((255 : ℝ) * 0) = 0 := toUint8_eq _ 0 (by decide) (by decide) (by norm_num) (by norm_num)
  have b1 : toUint8 ((255 : ℝ) * 1) = 255 :=
    toUint8_eq _ 255 (by decide) (by decide) (by norm_num) (by norm_num)
  have b2 : toUint8 ((255 : ℝ) * (1 / 2)) = 127 :=
    toUint8_eq _ 127 (by decide) (by decide) (by norm_num) (by norm_num)
  have b3 : toUint8 ((255 : ℝ) * (1 / 4)) = 63 :=
    toUint8_eq _ 63 (by decide) (by decide) (by norm_num) (by norm_num)
  simp only [writePPM, hres, h2, hrange, List.reverse_cons, List.reverse_nil, List.nil_append,
    List.cons_append, List.flatMap_cons, List.flatMap_nil, List.append_nil, pixelBytes,
    getPixel, tinyImage, List.getD_cons_zero, List.getD_cons_succ, vec3.smul, b0, b1, b2, b3]

section OutputClaims

variable {K : Type} [LinearOrderedField K]

/-- C11: in the pixel data written by `writePPM` (P6) for a `res.x × res.y`
image, the pixel stored at `pixels[x][y]`, with channels `(r, g, b)` in `[0,1]`,
occupies the three bytes at offset `3·((res.y − 1 − y)·res.x + x)`, and these
bytes are `⌊255·r⌋, ⌊255·g⌋, ⌊255·b⌋`; the data have `3·res.x·res.y` bytes, and
the row that starts with pixel `(0,0)` is the last one written: its offset plus
one row of `3·res.x` bytes is the length of the data. -/
theorem image_layout [FloorRing K] (pixels : List (List (vec3 K))) (scene : Scene K)
    (x y : Nat) (column : List (vec3 K)) (p : vec3 K)
    (hx : x < scene.res.x.toNat) (hy : y < scene.res.y.toNat)
    (hcol : pixels[x]? = some column) (hp : column[y]? = some p) (hunit : InUnit p) :
    ((writePPM pixels scene).drop
        (3 * ((scene.res.y.toNat - 1 - y) * scene.res.x.toNat + x))).take 3
      = [⌊255 * p.x⌋, ⌊255 * p.y⌋, ⌊255 * p.z⌋] ∧
    (writePPM pixels scene).length = 3 * (scene.res.x.toNat * scene.res.y.toNat) ∧
    3 * ((scene.res.y.toNat - 1 - 0) * scene.res.x.toNat + 0) + 3 * scene.res.x.toNat
      = (writePPM pixels scene).length := by
  have hlen : (writePPM pixels scene).length = 3 * (scene.res.x.toNat * scene.res.y.toNat) := by
    unfold writePPM
    rw [flatMap_length_const _ (3 * scene.res.x.toNat) _
      (fun _ _ => rowBytes_length pixels _ _), List.length_reverse, List.length_range]
    ring
  have hget : getPixel pixels x y = p := by
    simp [getPixel, hcol, hp]
  obtain ⟨h1, h2, h3, h4, h5, h6⟩ := hunit
  refine ⟨?_, hlen, ?_⟩
  · rw [writePPM_pixel pixels scene x y hx hy, hget]
    simp only [pixelBytes, vec3.smul, toUint8_of_unit _ h1 h2, toUint8_of_unit _ h3 h4,
      toUint8_of_unit _ h5 h6]
  · rw [hlen]
    have : scene.res.y.toNat - 1 - 0 + 1 = scene.res.y.toNat := by omega
    calc 3 * ((scene.res.y.toNat - 1 - 0) * scene.res.x.toNat + 0) + 3 * scene.res.x.toNat
        = 3 * (scene.res.x.toNat * (scene.res.y.toNat - 1 - 0 + 1)) := by ring
      _ = 3 * (scene.res.x.toNat * scene.res.y.toNat) := by rw [this]

/-- Witness for C11: pixel `(1,0)` of `tinyImage`, `(1/2, 1/4, 1)`, is written
at offset 9, after the row `y = 1`; the whole data are
`255 0 0 | 0 0 255 | 0 0 0 | 127 63 255`. -/
theorem image_layout_witness :
    (1 : Nat) < (tinyScene : Scene ℝ).res.x.toNat ∧ (0 : Nat) < (tinyScene : Scene ℝ).res.y.toNat ∧
    (tinyImage : List (List (vec3 ℝ)))[1]? = some [⟨1 / 2, 1 / 4, 1⟩, ⟨0, 0, 1⟩] ∧
    InUnit (⟨1 / 2, 1 / 4, 1⟩ : vec3 ℝ) ∧
    ((writePPM (tinyImage : List (List (vec3 ℝ))) tinyScene).drop
        (3 * (((tinyScene : Scene ℝ).res.y.toNat - 1 - 0) * (tinyScene : Scene ℝ).res.x.toNat
          + 1))).take 3
      = [⌊(255 : ℝ) * (1 / 2)⌋, ⌊(255 : ℝ) * (1 / 4)⌋, ⌊(255 : ℝ) * 1⌋] ∧
    writePPM (tinyImage : List (List (vec3 ℝ))) tinyScene
      = [255, 0, 0, 0, 0, 255, 0, 0, 0, 127, 63, 255] :=
  have hu : InUnit (⟨1 / 2, 1 / 4, 1⟩ : vec3 ℝ) := by
    simp only [InUnit]
    norm_num
  ⟨by decide, by decide, rfl, hu,
   (image_layout (tinyImage : List (List (vec3 ℝ))) tinyScene 1 0
      [⟨1 / 2, 1 / 4, 1⟩, ⟨0, 0, 1⟩] ⟨1 / 2, 1 / 4, 1⟩ (by decide) (by decide) rfl rfl hu).1,
   writePPM_tinyImage⟩

/-- C12: with `pixelCenter = false`, `rayThroughPixel` returns the start
`(0,0,0,1)` and the direction
`(left + 2·right·c/res.x, bottom + 2·top·r/res.y, −near, 0)` with `c = column`
and `r = row + 1`, not normalised; the point `start + 1·direction` has
`z = −near`. -/
theorem rayThroughPixel_default (scene : Scene K) (column row : Int) :
    rayThroughPixel scene column row false
      = ⟨⟨0, 0, 0, 1⟩,
         ⟨scene.left + 2 * scene.right * (column : K) / (scene.res.x : K),
          scene.bottom + 2 * scene.top * ((row : K) + 1) / (scene.res.y : K),
          -scene.near, 0⟩⟩ ∧
    (vec4.add (rayThroughPixel scene column row false).start
      (vec4.smul 1 (rayThroughPixel scene column row false).direction)).z = -scene.near := by
  constructor
  · simp only [rayThroughPixel, Bool.false_eq_true, if_false, Ray.mk.injEq, vec4.mk.injEq,
      true_and, and_true]
    constructor <;> ring
  · simp [rayThroughPixel, vec4.add, vec4.smul]

/-- C15, as stated, fails: with the frustum `left = 0 < right = 1`,
`bottom = 0 < top = 1`, `near = 1` and a 16 × 16 image, the primary ray through
pixel `(15, 0)` meets the image plane at `x = 15/8 > right`. -/
theorem primary_ray_outside_rectangle :
    (0 : Int) < (skewScene : Scene ℝ).res.x ∧ (0 : Int) < (skewScene : Scene ℝ).res.y ∧
    (0 : ℝ) < (skewScene : Scene ℝ).near ∧
    (skewScene : Scene ℝ).left < (skewScene : Scene ℝ).right ∧
    (skewScene : Scene ℝ).bottom < (skewScene : Scene ℝ).top ∧
    (15 : Int) < (skewScene : Scene ℝ).res.x ∧
    (vec4.add (rayThroughPixel (skewScene : Scene ℝ) 15 0 false).start
      (vec4.smul 1 (rayThroughPixel (skewScene : Scene ℝ) 15 0 false).direction)).x = 15 / 8 ∧
    (skewScene : Scene ℝ).right <
      (vec4.add (rayThroughPixel (skewScene : Scene ℝ) 15 0 false).start
        (vec4.smul 1 (rayThroughPixel (skewScene : Scene ℝ) 15 0 false).direction)).x := by
  have hx : (vec4.add (rayThroughPixel (skewScene : Scene ℝ) 15 0 false).start
      (vec4.smul 1 (rayThroughPixel (skewScene : Scene ℝ) 15 0 false).direction)).x = 15 / 8 := by
    simp [rayThroughPixel, skewScene, vec4.add, vec4.smul]
    norm_num
  refine ⟨by decide, by decide, ?_, ?_, ?_, by decide, hx, ?_⟩
  · simp [skewScene]
  · simp [skewScene]
  · simp [skewScene]
  · rw [hx]; norm_num [skewScene]

/-- C15, amended: for every scene with positive resolution whose frustum
satisfies `0 ≤ right`, `left ≤ −right`, `0 ≤ top`, `bottom ≤ −top` (in
particular a symmetric frustum `left = −right`, `bottom = −top`), and every
pixel with `0 ≤ column < res.x`, `0 ≤ row < res.y`, the point of the primary
ray at `t = 1` satisfies `left ≤ x ≤ right`, `bottom ≤ y ≤ top`, `z = −near`. -/
theorem primary_ray_in_rectangle (scene : Scene K) (column row : Int)
    (hX : 0 < scene.res.x) (hY : 0 < scene.res.y)
    (hright : 0 ≤ scene.right) (hleft : scene.left + scene.right ≤ 0)
    (htop : 0 ≤ scene.top) (hbottom : scene.bottom + scene.top ≤ 0)
    (hc0 : 0 ≤ column) (hc1 : column < scene.res.x) (hr0 : 0 ≤ row) (hr1 : row < scene.res.y) :
    scene.left ≤ (vec4.add (rayThroughPixel scene column row false).start
      (vec4.smul 1 (rayThroughPixel scene column row false).direction)).x ∧
    (vec4.add (rayThroughPixel scene column row false).start
      (vec4.smul 1 (rayThroughPixel scene column row false).direction)).x ≤ scene.right ∧
    scene.bottom ≤ (vec4.add (rayThroughPixel scene column row false).start
      (vec4.smul 1 (rayThroughPixel scene column row false).direction)).y ∧
    (vec4.add (rayThroughPixel scene column row false).start
      (vec4.smul 1 (rayThroughPixel scene column row false).direction)).y ≤ scene.top ∧
    (vec4.add (rayThroughPixel scene column row false).start
      (vec4.smul 1 (rayThroughPixel scene column row false).direction)).z = -scene.near := by
  have hXK : (0 : K) < (scene.res.x : K) := by exact_mod_cast hX
  have hYK : (0 : K) < (scene.res.y : K) := by exact_mod_cast hY
  have hc : (0 : K) ≤ (column : K) := by exact_mod_cast hc0
  have hc' : (column : K) ≤ (scene.res.x : K) := by exact_mod_cast le_of_lt hc1
  have hr : (0 : K) ≤ (row : K) + 1 := by
    have : (0 : K) ≤ (row : K) := by exact_mod_cast hr0
    linarith
  have hr' : (row : K) + 1 ≤ (scene.res.y : K) := by
    have : row + 1 ≤ scene.res.y := by omega
    exact_mod_cast this
  have hf0 : 0 ≤ (column : K) / (scene.res.x : K) := div_nonneg hc (le_of_lt hXK)
  have hf1 : (column : K) / (scene.res.x : K) ≤ 1 := (div_le_one hXK).mpr hc'
  have hg0 : 0 ≤ ((row : K) + 1) / (scene.res.y : K) := div_nonneg hr (le_of_lt hYK)
  have hg1 : ((row : K) + 1) / (scene.res.y : K) ≤ 1 := (div_le_one hYK).mpr hr'
  simp only [rayThroughPixel, Bool.false_eq_true, if_false, vec4.add, vec4.smul, one_mul,
    zero_add]
  refine ⟨?_, ?_, ?_, ?_, trivial⟩
  · nlinarith [mul_nonneg hright hf0]
  · nlinarith [mul_nonneg hright (sub_nonneg.mpr hf1)]
  · nlinarith [mul_nonneg htop hg0]
  · nlinarith [mul_nonneg htop (sub_nonneg.mpr hg1)]

/-- Witness for C15: the central pixel `(8, 7)` of scenario S2. -/
theorem primary_ray_in_rectangle_witness :
    (0 : Int) < (sceneS2 : Scene ℝ).res.x ∧ (0 : Int) < (sceneS2 : Scene ℝ).res.y ∧
    (0 : ℝ) ≤ (sceneS2 : Scene ℝ).right ∧
    (sceneS2 : Scene ℝ).left + (sceneS2 : Scene ℝ).right ≤ 0 ∧
    (0 : ℝ) ≤ (sceneS2 : Scene ℝ).top ∧
    (sceneS2 : Scene ℝ).bottom + (sceneS2 : Scene ℝ).top ≤ 0 ∧
    (sceneS2 : Scene ℝ).left ≤
      (vec4.add (rayThroughPixel (sceneS2 : Scene ℝ) 8 7 false).start
        (vec4.smul 1 (rayThroughPixel (sceneS2 : Scene ℝ) 8 7 false).direction)).x :=
  have h1 : (0 : ℝ) ≤ (sceneS2 : Scene ℝ).right := by simp [sceneS2]
  have h2 : (sceneS2 : Scene ℝ).left + (sceneS2 : Scene ℝ).right ≤ 0 := by simp [sceneS2]
  have h3 : (0 : ℝ) ≤ (sceneS2 : Scene ℝ).top := by simp [sceneS2]
  have h4 : (sceneS2 : Scene ℝ).bottom + (sceneS2 : Scene ℝ).top ≤ 0 := by simp [sceneS2]
  ⟨by decide, by decide, h1, h2, h3, h4,
   (primary_ray_in_rectangle sceneS2 8 7 (by decide) (by decide) h1 h2 h3 h4 (by decide)
      (by decide) (by decide) (by decide)).1⟩

/-- C13: in scenario S2 every pixel whose primary ray hits the sphere (at a
parameter `t > 1`) is stored as `(1,0,0)` and written as the bytes
`(255,0,0)`; the ray of the central pixel `(8, 7)` has direction `(0,0,−1)` and
hits at `t = 2`; the four corner pixels miss and are written as `(0,0,0)`. -/
theorem scenario_S2 :
    (∀ column row : Nat, column < 16 → row < 16 → ∀ X : Intersection ℝ,
      closestIntersection Real.sqrt
          (rayThroughPixel (sceneS2 : Scene ℝ) (column : Int) (row : Int) false) sceneS2 (-1) 1
        = some X →
      1 < X.distance ∧
      getPixel (renderImage Real.sqrt (sceneS2 : Scene ℝ)) column row = ⟨1, 0, 0⟩ ∧
      ((writePPM (renderImage Real.sqrt (sceneS2 : Scene ℝ)) sceneS2).drop
          (3 * ((15 - row) * 16 + column))).take 3 = [255, 0, 0]) ∧
    rayThroughPixel (sceneS2 : Scene ℝ) ((8 : Nat) : Int) ((7 : Nat) : Int) false
      = ⟨⟨0, 0, 0, 1⟩, ⟨0, 0, -1, 0⟩⟩ ∧
    closestIntersection Real.sqrt
        (rayThroughPixel (sceneS2 : Scene ℝ) ((8 : Nat) : Int) ((7 : Nat) : Int) false)
        sceneS2 (-1) 1
      = some (recordHit Real.sqrt axisRay sphereS2 2) ∧
    (recordHit Real.sqrt (axisRay : Ray ℝ) sphereS2 2).distance = 2 ∧
    getPixel (renderImage Real.sqrt (sceneS2 : Scene ℝ)) 8 7 = ⟨1, 0, 0⟩ ∧
    (∀ p ∈ ([(0, 0), (15, 0), (0, 15), (15, 15)] : List (Nat × Nat)),
      closestIntersection Real.sqrt
          (rayThroughPixel (sceneS2 : Scene ℝ) (p.1 : Int) (p.2 : Int) false) sceneS2 (-1) 1
        = none ∧
      getPixel (renderImage Real.sqrt (sceneS2 : Scene ℝ)) p.1 p.2 = ⟨0, 0, 0⟩ ∧
      ((writePPM (renderImage Real.sqrt (sceneS2 : Scene ℝ)) sceneS2).drop
          (3 * ((15 - p.2) * 16 + p.1))).take 3 = [0, 0, 0]) := by
  have hbytes : ∀ column row : Nat, column < 16 → row < 16 →
      ((writePPM (renderImage Real.sqrt (sceneS2 : Scene ℝ)) sceneS2).drop
          (3 * ((15 - row) * 16 + column))).take 3
        = pixelBytes (getPixel (renderImage Real.sqrt (sceneS2 : Scene ℝ)) column row) :=
    fun column row hc hr =>
      writePPM_pixel (renderImage Real.sqrt (sceneS2 : Scene ℝ)) sceneS2 column row hc hr
  have hcenter := closestIntersection_axisRay_sceneS2
  rw [← rayThroughPixel_sceneS2_center] at hcenter
  refine ⟨?_, rayThroughPixel_sceneS2_center, ?_, rfl, ?_, ?_⟩
  · intro column row hc hr X hX
    have hpix := sceneS2_hit_pixel column row hc hr X hX
    refine ⟨?_, hpix, ?_⟩
    · obtain ⟨_, _, _, t, _, hlt, _, hXeq, _⟩ :=
        closestIntersection_some Real.sqrt _ sceneS2 (-1) 1 X hX
      rw [hXeq]
      exact hlt
    · rw [hbytes column row hc hr, hpix, pixelBytes_red]
  · rw [rayThroughPixel_sceneS2_center]
    exact closestIntersection_axisRay_sceneS2
  · exact sceneS2_hit_pixel 8 7 (by decide) (by decide) _
      (by rw [rayThroughPixel_sceneS2_center]; exact closestIntersection_axisRay_sceneS2)
  · intro p hp
    obtain ⟨h00, h150, h015, h1515⟩ := hitTimes_sceneS2_corners
    simp only [List.mem_cons, List.mem_singleton, List.not_mem_nil, or_false] at hp
    rcases hp with h | h | h | h
    · rw [h]
      have hnone := closestIntersection_of_hitTimes_nil _ h00
      have hpix := sceneS2_miss_pixel 0 0 (by decide) (by decide) hnone
      exact ⟨hnone, hpix, by rw [hbytes 0 0 (by decide) (by decide), hpix, pixelBytes_black]⟩
    · rw [h]
      have hnone := closestIntersection_of_hitTimes_nil _ h150
      have hpix := sceneS2_miss_pixel 15 0 (by decide) (by decide) hnone
      exact ⟨hnone, hpix, by rw [hbytes 15 0 (by decide) (by decide), hpix, pixelBytes_black]⟩
    · rw [h]
      have hnone := closestIntersection_of_hitTimes_nil _ h015
      have hpix := sceneS2_miss_pixel 0 15 (by decide) (by decide) hnone
      exact ⟨hnone, hpix, by rw [hbytes 0 15 (by decide) (by decide), hpix, pixelBytes_black]⟩
    · rw [h]
      have hnone := closestIntersection_of_hitTimes_nil _ h1515
      have hpix := sceneS2_miss_pixel 15 15 (by decide) (by decide) hnone
      exact ⟨hnone, hpix, by rw [hbytes 15 15 (by decide) (by decide), hpix, pixelBytes_black]⟩

end OutputClaims

/-! ## Claims about misses, shading and reflection -/

section BehaviourClaims

variable {K : Type} [LinearOrderedField K]

/-- C14: in `rayTrace` with `depth ≤ MAX_DEPTH`: with `excludeSphereId = −1`
the intersector is queried with `tMin = 1`, so if no sphere has a candidate
root `t > 1` the query misses and the result is `scene.back` (whatever the
spheres intersected at `t ≤ 1`), and if that query returns `X` the result is
the colour computed from `X`; with `excludeSphereId ≠ −1` the query uses
`tMin = 10⁻⁵`: a miss returns `(0,0,0)`, and if the query returns `X` the
result is the colour computed from `X`. -/
theorem miss_handling (sqrt : K → K) (ray : Ray K) (scene : Scene K) (depth : Int)
    (hd : depth ≤ MAX_DEPTH) :
    ((∀ s ∈ scene.spheres, ∀ t, some t ∈ hitTimes sqrt ray s → ¬ 1 < t) →
      closestIntersection sqrt ray scene (-1) 1 = none ∧
      rayTrace sqrt ray scene depth (-1) = scene.back) ∧
    (∀ excludeSphereId : Int, excludeSphereId ≠ -1 →
      closestIntersection sqrt ray scene excludeSphereId (1 / 100000) = none →
      rayTrace sqrt ray scene depth excludeSphereId = vec3.zero) ∧
    (closestIntersection sqrt ray scene (-1) 1 = none →
      rayTrace sqrt ray scene depth (-1) = scene.back) ∧
    (∀ X : Intersection K, closestIntersection sqrt ray scene (-1) 1 = some X →
      rayTrace sqrt ray scene depth (-1)
        = vec3.add (vec3.add (ambientColor scene X) (lightColor sqrt scene X depth))
            (if X.sphere.Kr ≠ 0 then
              vec3.smul X.sphere.Kr
                (rayTrace sqrt (getReflectedRay ray X) scene (depth + 1) X.sphere.id)
            else vec3.zero)) ∧
    (∀ excludeSphereId : Int, excludeSphereId ≠ -1 → ∀ X : Intersection K,
      closestIntersection sqrt ray scene excludeSphereId (1 / 100000) = some X →
      rayTrace sqrt ray scene depth excludeSphereId
        = vec3.add (vec3.add (ambientColor scene X) (lightColor sqrt scene X depth))
            (if X.sphere.Kr ≠ 0 then
              vec3.smul X.sphere.Kr
                (rayTrace sqrt (getReflectedRay ray X) scene (depth + 1) X.sphere.id)
            else vec3.zero)) := by
  have hd' : ¬ depth > MAX_DEPTH := by omega
  have hprim : closestIntersection sqrt ray scene (-1) 1 = none →
      rayTrace sqrt ray scene depth (-1) = scene.back := by
    intro hnone
    unfold rayTrace
    rw [rayTraceD_eq sqrt MAX_DEPTH ray scene depth (-1) hd', traceMinHit_primary, hnone]
    simp
  refine ⟨?_, ?_, hprim, ?_, ?_⟩
  · intro hno
    have hnone : closestIntersection sqrt ray scene (-1) 1 = none := by
      rw [closestIntersection_none_iff]
      intro s hs _ t ht hcon
      exact hno s hs t ht hcon.1
    exact ⟨hnone, hprim hnone⟩
  · intro ex hex hnone
    unfold rayTrace
    rw [rayTraceD_eq sqrt MAX_DEPTH ray scene depth ex hd', traceMinHit_secondary ex hex, hnone]
    simp [hex]
  · intro X hX
    unfold rayTrace
    rw [rayTraceD_eq sqrt MAX_DEPTH ray scene depth (-1) hd', traceMinHit_primary, hX]
  · intro ex hex X hX
    unfold rayTrace
    rw [rayTraceD_eq sqrt MAX_DEPTH ray scene depth ex hd', traceMinHit_secondary ex hex, hX]

/-- Witness for C14: the axis ray meets the unit sphere around the eye only at
`t = 1` and `t = −1`, so the primary ray returns the background, although a
query with `tMin = 10⁻⁵` returns the hit at `t = 1`. -/
theorem miss_handling_witness :
    (0 : Int) ≤ MAX_DEPTH ∧
    (∀ s ∈ (eyeScene : Scene ℝ).spheres, ∀ t, some t ∈ hitTimes Real.sqrt (axisRay : Ray ℝ) s →
      ¬ 1 < t) ∧
    some (1 : ℝ) ∈ hitTimes Real.sqrt (axisRay : Ray ℝ) eyeSphere ∧
    rayTrace Real.sqrt (axisRay : Ray ℝ) eyeScene 0 (-1) = (eyeScene : Scene ℝ).back ∧
    closestIntersection Real.sqrt (axisRay : Ray ℝ) eyeScene (-1) (1 / 100000)
      = some (recordHit Real.sqrt axisRay eyeSphere 1) :=
  have hno : ∀ s ∈ (eyeScene : Scene ℝ).spheres, ∀ t,
      some t ∈ hitTimes Real.sqrt (axisRay : Ray ℝ) s → ¬ 1 < t := by
    intro s hs t ht
    simp only [eyeScene, List.mem_singleton] at hs
    rw [hs, hitTimes_axisRay_eyeSphere] at ht
    simp only [List.mem_cons, Option.some.injEq, List.mem_singleton, List.not_mem_nil,
      or_false] at ht
    rcases ht with h | h <;> rw [h] <;> norm_num
  ⟨by decide, hno, by rw [hitTimes_axisRay_eyeSphere]; simp,
   ((miss_handling Real.sqrt axisRay eyeScene 0 (by decide)).1 hno).2,
   closestIntersection_axisRay_eyeScene⟩

/-- C17: if `first` is the first sphere in `scene.spheres` (not excluded)
having the candidate root `t`, where `t` is the minimal qualifying parameter
(`tMin < t < FLT_MAX`, no qualifying candidate of a non-excluded sphere is
smaller), then `closestIntersection` returns the intersection whose sphere is
`first`, whose point is `start + t·direction`, whose normal is the normalised
`xyz(first.TinvTranspose · (first.Tinv·start + t·first.Tinv·direction))` and
whose distance is `t`, whatever spheres with the same candidate root follow;
and a hit time equal to the recorded distance never replaces the record. -/
theorem tie_breaking (sqrt : K → K) (ray : Ray K) (scene : Scene K) (excludeSphereId : Int)
    (tMin t : K) (front rest : List (Sphere K)) (first : Sphere K)
    (hsplit : scene.spheres = front ++ first :: rest)
    (hid : first.id ≠ excludeSphereId)
    (ht : some t ∈ hitTimes sqrt ray first) (hlo : tMin < t) (hhi : t < FLT_MAX)
    (hmin : ∀ s ∈ scene.spheres, s.id ≠ excludeSphereId → ∀ t', some t' ∈ hitTimes sqrt ray s →
      tMin < t' → t ≤ t')
    (hfirst : ∀ s ∈ front, s.id ≠ excludeSphereId → some t ∉ hitTimes sqrt ray s) :
    closestIntersection sqrt ray scene excludeSphereId tMin
      = some
          { sphere := first
            point := vec4.add ray.start (vec4.smul t ray.direction)
            normal := vec3.normalize sqrt (vec4.xyz (mat4.mulVec first.TinvTranspose
              (vec4.add (mat4.mulVec first.Tinv ray.start)
                (vec4.smul t (mat4.mulVec first.Tinv ray.direction)))))
            distance := t } ∧
    (∀ (sphere : Sphere K) (st : Intersection K × Bool),
      hitStep sqrt ray tMin sphere st (some st.1.distance) = st) := by
  refine ⟨?_, fun sphere st => hitStep_equal sqrt ray tMin sphere st⟩
  show closestIntersection sqrt ray scene excludeSphereId tMin
    = some (recordHit sqrt ray first t)
  rw [closestIntersection_eq_foldl, hsplit, List.foldl_append, List.foldl_cons]
  -- the state after the spheres in front of `first`
  obtain ⟨_, _, f3⟩ := sphereStep_foldl sqrt ray excludeSphereId tMin front
    (⟨Sphere.blank, vec4.zero, vec3.zero, FLT_MAX⟩, false)
  have hfront : t < (front.foldl (sphereStep sqrt ray excludeSphereId tMin)
      (⟨Sphere.blank, vec4.zero, vec3.zero, FLT_MAX⟩, false)).1.distance := by
    rcases f3 with h | ⟨s, hs, hne, t', ht', hlt', _, heq⟩
    · rw [h]; exact hhi
    · rw [heq, recordHit_distance]
      have hs' : s ∈ scene.spheres := by rw [hsplit]; simp [hs]
      have hle := hmin s hs' hne t' ht' hlt'
      rcases lt_or_eq_of_le hle with h | h
      · exact h
      · exact absurd (h ▸ ht') (hfirst s hs hne)
  generalize front.foldl (sphereStep sqrt ray excludeSphereId tMin)
      (⟨Sphere.blank, vec4.zero, vec3.zero, FLT_MAX⟩, false) = st₁ at hfront
  -- the step for `first`
  have hmem : first ∈ scene.spheres := by rw [hsplit]; simp
  have hstep : sphereStep sqrt ray excludeSphereId tMin st₁ first
      = (recordHit sqrt ray first t, true) := by
    simp only [sphereStep, if_neg hid]
    obtain ⟨_, g2, g3⟩ := hitStep_foldl sqrt ray tMin first (hitTimes sqrt ray first) st₁
    have hle := g2 t ht hlo
    rcases g3 with h | ⟨t', ht', hlt', _, heq⟩
    · rw [h] at hle
      exact absurd hfront (not_lt.mpr hle)
    · rw [heq, recordHit_distance] at hle
      have := hmin first hmem hid t' ht' hlt'
      rw [heq, le_antisymm hle this]
  rw [hstep]
  -- the spheres after `first`
  obtain ⟨_, _, r3⟩ := sphereStep_foldl sqrt ray excludeSphereId tMin rest
    (recordHit sqrt ray first t, true)
  rcases r3 with h | ⟨s, hs, hne, t', ht', hlt', hd, _⟩
  · rw [h]; rfl
  · rw [recordHit_distance] at hd
    have hs' : s ∈ scene.spheres := by rw [hsplit]; simp [hs]
    exact absurd hd (not_lt.mpr (hmin s hs' hne t' ht' hlt'))

/-- Witness for C17: in `twinScene = [sphereS2, twinSphere]` both spheres have
the candidate root 2; the returned intersection is that of `sphereS2`. -/
theorem tie_breaking_witness :
    (twinScene : Scene ℝ).spheres = [sphereS2, twinSphere] ∧
    (sphereS2 : Sphere ℝ).id ≠ (twinSphere : Sphere ℝ).id ∧
    closestIntersection Real.sqrt (axisRay : Ray ℝ) twinScene (-1) 1
      = some
          { sphere := sphereS2
            point := vec4.add (axisRay : Ray ℝ).start (vec4.smul 2 (axisRay : Ray ℝ).direction)
            normal := vec3.normalize Real.sqrt (vec4.xyz (mat4.mulVec
              (sphereS2 : Sphere ℝ).TinvTranspose
              (vec4.add (mat4.mulVec (sphereS2 : Sphere ℝ).Tinv (axisRay : Ray ℝ).start)
                (vec4.smul 2 (mat4.mulVec (sphereS2 : Sphere ℝ).Tinv
                  (axisRay : Ray ℝ).direction)))))
            distance := 2 } ∧
    some (2 : ℝ) ∈ hitTimes Real.sqrt (axisRay : Ray ℝ) sphereS2 ∧
    some (2 : ℝ) ∈ hitTimes Real.sqrt (axisRay : Ray ℝ) twinSphere :=
  ⟨rfl, by simp [sphereS2, twinSphere],
   (tie_breaking Real.sqrt axisRay twinScene (-1) 1 2 [] [twinSphere] sphereS2 rfl
      (by simp [sphereS2]) (by rw [hitTimes_axisRay_sphereS2]; simp) (by norm_num)
      (by norm_num [FLT_MAX])
      (by
        intro s hs _ t' ht' hlt
        simp only [twinScene, List.mem_cons, List.mem_singleton, List.not_mem_nil,
          or_false] at hs
        rcases hs with h | h
        · rw [h, hitTimes_axisRay_sphereS2] at ht'
          simp only [List.mem_cons, Option.some.injEq, List.mem_singleton, List.not_mem_nil,
            or_false] at ht'
          rcases ht' with rfl | rfl <;> norm_num
        · rw [h, hitTimes_axisRay_twinSphere] at ht'
          simp only [List.mem_cons, Option.some.injEq, List.mem_singleton, List.not_mem_nil,
            or_false] at ht'
          rcases ht' with rfl | rfl <;> norm_num)
      (by simp)).1,
   by rw [hitTimes_axisRay_sphereS2]; simp,
   by rw [hitTimes_axisRay_twinSphere]; simp⟩

/-- C19, evaluated on the code: `nearHit` is the primary hit of the axis ray in
`nearScene`, seen from inside (`N·V = −1 < −10⁻⁵`); `insideLight` lies strictly
inside the hit sphere, the only sphere of the scene, and is not shadowed; yet
the auxiliary ray from the sphere centre to the light, which passes the light
at `t = 1`, hits the sphere itself at `t = 2`, so `shadowRay` returns
`(0,0,0)`, whereas shading with the flipped normal would give `(1,0,0)`. -/
theorem interior_light_returns_black :
    closestIntersection Real.sqrt (axisRay : Ray ℝ) nearScene (-1) 1 = some nearHit ∧
    vec3.dot (nearHit : Intersection ℝ).normal (viewDir Real.sqrt nearHit) < -(1 / 100000) ∧
    vec3.dot
        (vec4.xyz (vec4.sub (insideLight : Light ℝ).pos (vec4.ofVec3 nearSphere.pos 1)))
        (vec4.xyz (vec4.sub (insideLight : Light ℝ).pos (vec4.ofVec3 nearSphere.pos 1))) < 1 ∧
    (nearScene : Scene ℝ).spheres = [(nearHit : Intersection ℝ).sphere] ∧
    closestIntersection Real.sqrt (toLight (insideLight : Light ℝ) nearHit) nearScene
      (nearHit : Intersection ℝ).sphere.id (1 / 100000) = none ∧
    closestIntersection Real.sqrt (centerToLight (insideLight : Light ℝ) nearHit) nearScene
      (-1) 0
      = some (recordHit Real.sqrt (centerToLight insideLight nearHit) nearSphere 2) ∧
    shadowRay Real.sqrt (nearScene : Scene ℝ) insideLight nearHit false = vec3.zero ∧
    phong (insideLight : Light ℝ) (nearHit : Intersection ℝ).sphere
        (vec3.smul (-1) (nearHit : Intersection ℝ).normal)
        (lightDir Real.sqrt insideLight nearHit)
        (reflectDir Real.sqrt (nearHit : Intersection ℝ).normal
          (lightDir Real.sqrt insideLight nearHit))
        (viewDir Real.sqrt nearHit)
      = ⟨1, 0, 0⟩ := by
  have hin : vec3.dot (nearHit : Intersection ℝ).normal (viewDir Real.sqrt nearHit)
      < -(1 / 100000) := by
    rw [viewDir_nearHit]
    norm_num [nearHit, vec3.dot]
  refine ⟨closestIntersection_axisRay_nearScene, hin, ?_, rfl, closestIntersection_toLight_nearScene,
    closestIntersection_centerToLight_nearScene, ?_, ?_⟩
  · norm_num [insideLight, nearSphere, vec4.sub, vec4.ofVec3, vec4.xyz, vec3.dot]
  · unfold shadowRay
    rw [closestIntersection_toLight_nearScene]
    simp only [Option.isSome_none, Bool.false_eq_true, if_false, true_and, hin, if_true,
      closestIntersection_centerToLight_nearScene, Option.isSome_some]
  · rw [lightDir_insideLight_nearHit, viewDir_nearHit]
    have hR : reflectDir Real.sqrt (nearHit : Intersection ℝ).normal ⟨0, 0, 1⟩ = ⟨0, 0, 1⟩ := by
      simp [reflectDir, nearHit, vec3.normalize, vec3.smul, vec3.dot, vec3.sub, vec3.neg]
      norm_num
    rw [hR]
    simp [nearHit, nearSphere, insideLight, phong, vec3.dot, vec3.smul, vec3.add, vec3.mul,
      vec3.zero]
    norm_num

/-- C20: for an intersection whose normal `N` has unit length, the reflected
ray starts at `intersection.point`; its direction `d' = d − 2·(Ñ·d)·Ñ`
satisfies `Ñ·d' = −(Ñ·d)` and `|d'| = |d|`, keeps the `w` of `d` (so `w = 0`
stays 0), and reflecting `d'` about the same normal gives back `d`. -/
theorem reflection_mirror {sqrt : K → K} (hs : IsSqrt sqrt) (ray : Ray K) (X : Intersection K)
    (hN : vec3.length sqrt X.normal = 1) :
    (getReflectedRay ray X).start = X.point ∧
    (getReflectedRay ray X).direction
      = vec4.sub ray.direction
          (vec4.smul (2 * vec4.dot (vec4.ofVec3 X.normal 0) ray.direction)
            (vec4.ofVec3 X.normal 0)) ∧
    vec4.dot (vec4.ofVec3 X.normal 0) (getReflectedRay ray X).direction
      = -(vec4.dot (vec4.ofVec3 X.normal 0) ray.direction) ∧
    vec4.dot (getReflectedRay ray X).direction (getReflectedRay ray X).direction
      = vec4.dot ray.direction ray.direction ∧
    sqrt (vec4.dot (getReflectedRay ray X).direction (getReflectedRay ray X).direction)
      = sqrt (vec4.dot ray.direction ray.direction) ∧
    (getReflectedRay ray X).direction.w = ray.direction.w ∧
    (ray.direction.w = 0 → (getReflectedRay ray X).direction.w = 0) ∧
    (getReflectedRay (getReflectedRay ray X) X).direction = ray.direction := by
  have hunit : vec3.dot X.normal X.normal = 1 := by
    obtain ⟨_, h1⟩ := hs _ (vec3.dot_self_nonneg X.normal)
    unfold vec3.length at hN
    rw [hN] at h1
    linarith
  simp only [vec3.dot] at hunit
  have hlen : vec4.dot (getReflectedRay ray X).direction (getReflectedRay ray X).direction
      = vec4.dot ray.direction ray.direction := by
    simp only [getReflectedRay, vec4.add, vec4.smul, vec4.dot, vec4.ofVec3]
    linear_combination (4 * (X.normal.x * ray.direction.x + X.normal.y * ray.direction.y
      + X.normal.z * ray.direction.z) ^ 2) * hunit
  have hw : (getReflectedRay ray X).direction.w = ray.direction.w := by
    simp [getReflectedRay, vec4.add, vec4.smul, vec4.ofVec3]
  refine ⟨rfl, ?_, ?_, hlen, by rw [hlen], hw, fun h0 => by rw [hw, h0], ?_⟩
  · simp only [getReflectedRay, vec4.add, vec4.sub, vec4.smul, vec4.dot, vec4.ofVec3,
      vec4.mk.injEq]
    refine ⟨?_, ?_, ?_, ?_⟩ <;> ring
  · simp only [getReflectedRay, vec4.add, vec4.smul, vec4.dot, vec4.ofVec3]
    linear_combination (-2 * (X.normal.x * ray.direction.x + X.normal.y * ray.direction.y
      + X.normal.z * ray.direction.z)) * hunit
  · have hx : ∀ u v : vec4 K, u.x = v.x → u.y = v.y → u.z = v.z → u.w = v.w → u = v := by
      intro u v h1 h2 h3 h4
      cases u; cases v; simp_all
    apply hx
    · simp only [getReflectedRay, vec4.add, vec4.smul, vec4.dot, vec4.ofVec3]
      linear_combination (4 * X.normal.x * (X.normal.x * ray.direction.x
        + X.normal.y * ray.direction.y + X.normal.z * ray.direction.z)) * hunit
    · simp only [getReflectedRay, vec4.add, vec4.smul, vec4.dot, vec4.ofVec3]
      linear_combination (4 * X.normal.y * (X.normal.x * ray.direction.x
        + X.normal.y * ray.direction.y + X.normal.z * ray.direction.z)) * hunit
    · simp only [getReflectedRay, vec4.add, vec4.smul, vec4.dot, vec4.ofVec3]
      linear_combination (4 * X.normal.z * (X.normal.x * ray.direction.x
        + X.normal.y * ray.direction.y + X.normal.z * ray.direction.z)) * hunit
    · simp [getReflectedRay, vec4.add, vec4.smul, vec4.ofVec3]

/-- Witness for C20: the eye ray `glossyRay` reflected at `glossyHit`, whose
normal is `(0, 1, 0)`. -/
theorem reflection_mirror_witness :
    IsSqrt Real.sqrt ∧ vec3.length Real.sqrt (glossyHit 1 : Intersection ℝ).normal = 1 ∧
    vec4.dot (vec4.ofVec3 (glossyHit 1 : Intersection ℝ).normal 0)
        (getReflectedRay (glossyRay : Ray ℝ) (glossyHit 1)).direction
      = -(vec4.dot (vec4.ofVec3 (glossyHit 1 : Intersection ℝ).normal 0)
          (glossyRay : Ray ℝ).direction) :=
  have hN : vec3.length Real.sqrt (glossyHit 1 : Intersection ℝ).normal = 1 := by
    simp [vec3.length, vec3.dot, glossyHit]
  ⟨isSqrt_real, hN, (reflection_mirror isSqrt_real glossyRay (glossyHit 1) hN).2.2.1⟩

end BehaviourClaims

end Raytracer
